import Mathlib

/-!
Shallow embedding of tfglib/seq2seq_datatable.py and proofs about it.

Numbers are modelled as rationals: an exact idealisation of the float64
values the code manipulates; every operation performed on them here is
order/equality based, so the idealisation is faithful for the properties
proved.  File access is abstracted: an FS value maps a parse width and a
path to the parsed frames-by-width table, and a TextFS maps a path to the
lines of a text file.
-/

namespace Tfglib

attribute [local semireducible] Rat.sub Rat.add Rat.mul

abbrev Row := List ℚ
abbrev Table := List Row

inductive PyErr where
  | assertionError
  | indexError
  | valueError
deriving DecidableEq, Repr

deriving instance DecidableEq for Except

abbrev FS := Nat → String → Table
abbrev TextFS := String → List String

/-- Modelled from the spec: tfglib.construct_table.parse_file is not under
src/; per section 6 it is a width-parameterized parser returning a
frames-by-width numeric array.  The file system is abstracted by fs. -/
def parse_file (fs : FS) (width : Nat) (path : String) : Table :=
  fs width path

/-- The parser contract of spec section 6: every row read with width w has
w entries. -/
def ParsedWF (fs : FS) : Prop :=
  ∀ w p, ∀ r ∈ fs w p, r.length = w

/-- numpy-style shape of a 2D array: row count plus the column count of
each row (for the rectangular arrays the parser produces this carries the
same information as the (rows, cols) pair). -/
def shapeOf (m : Table) : Nat × List Nat := (m.length, m.map (fun r => r.length))

/-- A Python assert: raises AssertionError when the condition fails. -/
def assertE (b : Prop) [Decidable b] : Except PyErr Unit :=
  if b then .ok () else .error .assertionError

/-- The trailing-slash check (lines 28-33, 81-94, 221-225, 314-318 of the
source): indexing the last character raises an uncaught IndexError on an
empty string; the assert failure is caught and only reported. -/
def dir_slash_check (p msg : String) : Except PyErr (List String) :=
  if p.length = 0 then .error .indexError
  else if p.back = '/' then .ok [] else .ok [msg]

/-- Modelled from the spec: tfglib.utils.kronecker_delta is not under
src/; section 4.2 step 2 describes it as the indicator that its argument
equals exactly zero. -/
def kronecker_delta (x : ℚ) : ℚ := if x = 0 then 1 else 0

/-- Lines 130-137: voiced/unvoiced flag rows, 1 - delta(vf value). -/
def voicedFlags (vf : Table) : Table :=
  vf.map (fun r => r.map (fun v => 1 - kronecker_delta v))

/-- Lines 139-144: zeros shaped like m with the last row set to ones;
numpy raises IndexError when m has no rows. -/
def eosFlag (m : Table) : Except PyErr Table :=
  match m with
  | [] => .error .indexError
  | r :: rs =>
    .ok (List.replicate rs.length (List.replicate r.length (0:ℚ)) ++
         [List.replicate r.length (1:ℚ)])

/-- Modelled from the spec: keras' to_categorical is an external
collaborator; section 3: width-10 one-hot vector for the speaker index,
replicated once per frame. -/
def to_categorical (idx n : Nat) : Table :=
  List.replicate n ((List.range 10).map (fun j => if j = idx then (1:ℚ) else 0))

/-- Modelled from the spec: tfglib.zero_pad.zero_pad_params is not under
src/; glossary and section 4.2 step 6: extend to longest rows by zero rows
at the front for 'src' and at the back for 'trg'; numpy raises ValueError
on a negative pad count. -/
def zero_pad_params (longest : Nat) (pad_dir : String) (params : Table) : Except PyErr Table :=
  if longest < params.length then .error .valueError
  else
    let w := (params.headD []).length
    let pad := List.replicate (longest - params.length) (List.replicate w (0:ℚ))
    .ok (if pad_dir = "src" then pad ++ params else params ++ pad)

/-- np.concatenate(axis=1) of two equally tall tables. -/
def hcat (a b : Table) : Table := List.zipWith (fun r s => r ++ s) a b

/-- np.concatenate(axis=1) of a list of tables. -/
def hconcat : List Table → Table
  | [] => []
  | m :: ms => ms.foldl hcat m

/-- Lines 158-167: front-padded source mask. -/
def sourceMaskOf (longest n : Nat) : Except PyErr Table :=
  if longest < n then .error .valueError
  else .ok (List.replicate (longest - n) [(0:ℚ)] ++ List.replicate n [(1:ℚ)])

/-- Lines 170-179: back-padded target mask. -/
def targetMaskOf (longest n : Nat) : Except PyErr Table :=
  if longest < n then .error .valueError
  else .ok (List.replicate n [(1:ℚ)] ++ List.replicate (longest - n) [(0:ℚ)])

def mcpPath (dir bn : String) : String := dir ++ bn ++ "." ++ "mcp" ++ ".dat"

def lf0FilePath (dir bn : String) : String := dir ++ bn ++ "." ++ "lf0" ++ ".dat"

def lf0iFilePath (dir bn : String) : String := dir ++ bn ++ "." ++ "lf0" ++ ".i.dat"

def vfFilePath (dir bn : String) : String := dir ++ bn ++ "." ++ "vf" ++ ".dat"

def vfiFilePath (dir bn : String) : String := dir ++ bn ++ "." ++ "vf" ++ ".i.dat"

def spkDir (data_dir speaker : String) : String := data_dir ++ "vocoded_s2s/" ++ speaker ++ "/"

/-- Lines 34-50: the scan loop of find_longest_sequence. -/
def longest_loop (fs : FS) (data_dir : String) (speakers basenames : List String) : Nat :=
  speakers.foldl (fun acc speaker =>
    basenames.foldl (fun acc2 basename =>
      let n := (parse_file fs 1 (lf0FilePath (spkDir data_dir speaker) basename)).length
      if n > acc2 then n else acc2) acc) 0

/-- Lines 15-50. -/
def find_longest_sequence (fs : FS) (data_dir : String) (speakers basenames : List String) :
    Except PyErr (List String × Nat) := do
  let w ← dir_slash_check data_dir "Please, make sure the data directory string ends with a '/'"
  .ok (w, longest_loop fs data_dir speakers basenames)

/-- Lines 96-202 of seq2seq_build_file_table: everything after the two
advisory directory checks. -/
def build_file_core (fs : FS) (source_dir : String) (src_index : Nat)
    (target_dir : String) (trg_index : Nat) (basename : String) (longest_seq : Nat) :
    Except PyErr (Table × Table × Table × Table) := do
  let source_mcp := parse_file fs 40 (mcpPath source_dir basename)
  let source_f0 := parse_file fs 1 (lf0FilePath source_dir basename)
  let source_f0_i := parse_file fs 1 (lf0iFilePath source_dir basename)
  let source_vf := parse_file fs 1 (vfFilePath source_dir basename)
  let source_vf_i := parse_file fs 1 (vfiFilePath source_dir basename)
  let target_mcp := parse_file fs 40 (mcpPath target_dir basename)
  let target_f0 := parse_file fs 1 (lf0FilePath target_dir basename)
  let target_f0_i := parse_file fs 1 (lf0iFilePath target_dir basename)
  let target_vf := parse_file fs 1 (vfFilePath target_dir basename)
  let target_vf_i := parse_file fs 1 (vfiFilePath target_dir basename)
  assertE (shapeOf source_vf = shapeOf source_f0)
  let source_voiced := voicedFlags source_vf
  assertE (shapeOf target_vf = shapeOf target_f0)
  let target_voiced := voicedFlags target_vf
  let src_eos_flag ← eosFlag source_vf
  let trg_eos_flag ← eosFlag target_vf
  let src_spk_index := to_categorical src_index source_vf.length
  let trg_spk_index := to_categorical trg_index target_vf.length
  let source_mask ← sourceMaskOf longest_seq source_mcp.length
  let target_mask ← targetMaskOf longest_seq target_mcp.length
  assertE (shapeOf source_mask = shapeOf target_mask)
  let p1 ← zero_pad_params longest_seq "src" source_mcp
  let p2 ← zero_pad_params longest_seq "src" source_f0_i
  let p3 ← zero_pad_params longest_seq "src" source_vf_i
  let p4 ← zero_pad_params longest_seq "src" source_voiced
  let p5 ← zero_pad_params longest_seq "src" src_eos_flag
  let p6 ← zero_pad_params longest_seq "src" src_spk_index
  let p7 ← zero_pad_params longest_seq "src" trg_spk_index
  let q1 ← zero_pad_params longest_seq "trg" target_mcp
  let q2 ← zero_pad_params longest_seq "trg" target_f0_i
  let q3 ← zero_pad_params longest_seq "trg" target_vf_i
  let q4 ← zero_pad_params longest_seq "trg" target_voiced
  let q5 ← zero_pad_params longest_seq "trg" trg_eos_flag
  .ok (hconcat [p1, p2, p3, p4, p5, p6, p7], source_mask,
       hconcat [q1, q2, q3, q4, q5], target_mask)

/-- Lines 53-202. -/
def seq2seq_build_file_table (fs : FS) (source_dir : String) (src_index : Nat)
    (target_dir : String) (trg_index : Nat) (basename : String) (longest_seq : Nat) :
    Except PyErr (List String × (Table × Table × Table × Table)) := do
  let w1 ← dir_slash_check source_dir
    "Please make sure the source data directory string ends with a '/'"
  let w2 ← dir_slash_check target_dir
    "Please make sure the target data directory string ends with a '/'"
  let r ← build_file_core fs source_dir src_index target_dir trg_index basename longest_seq
  .ok (w1 ++ w2, r)

/-- line.split('\n')[0]: the prefix of the line before its first newline. -/
def stripNL (line : String) : String :=
  String.mk (line.data.takeWhile (fun c => c ≠ '\n'))

/-- Lines 228-236: read a list file and strip the line terminators. -/
def linesOf (tfs : TextFS) (data_dir file : String) : List String :=
  (tfs (data_dir ++ file)).map stripNL

structure S2SAcc where
  src_dt : List Table
  trg_dt : List Table
  src_masks : List Table
  trg_masks : List Table
  spk_max : Table
  spk_min : Table
deriving DecidableEq, Repr

/-- The float literal 1e+50 of line 249, idealised as the exact power of
ten (only its role as a very large sentinel matters here). -/
def sentinel : ℚ := 10 ^ 50

/-- Lines 241-249. -/
def initAcc : S2SAcc :=
  ⟨[], [], [], [], List.replicate 10 (List.replicate 42 (0:ℚ)),
   List.replicate 10 (List.replicate 42 sentinel)⟩

/-- Lines 272-275: the first 42 columns of the rows the source mask marks
valid. -/
def maskedRows (params mask : Table) : Table :=
  (params.zip mask).filterMap
    (fun q => if q.2.headD 0 = 1 then some (q.1.take 42) else none)

/-- np.ma.max / np.ma.min along axis 0: none when every row is masked out. -/
def colFold (f : ℚ → ℚ → ℚ) : Table → Option Row
  | [] => none
  | r :: rs => some (rs.foldl (fun a b => List.zipWith f a b) r)

/-- Lines 270-282: update the per-speaker statistics from one pair.  When
the mask selects no row at all np.ma yields fully masked columns; that
degenerate case (an empty sequence) cannot arise for nonempty data and is
modelled as leaving the statistics unchanged. -/
def statStep (acc : S2SAcc) (si : Nat) (sp sm : Table) : S2SAcc :=
  match colFold max (maskedRows sp sm), colFold min (maskedRows sp sm) with
  | some mx, some mn =>
    { acc with
      spk_max := acc.spk_max.set si (List.zipWith max (acc.spk_max.getD si []) mx)
      spk_min := acc.spk_min.set si (List.zipWith min (acc.spk_min.getD si []) mn) }
  | _, _ => acc

/-- Lines 252-254: iteration order of the triple loop. -/
def pairsOf (speakers basenames : List String) : List (Nat × String × Nat × String × String) :=
  speakers.enum.flatMap fun se =>
    speakers.enum.flatMap fun te =>
      basenames.map fun bn => (se.1, se.2, te.1, te.2, bn)

/-- Lines 255-288: one iteration of the loop body. -/
def constructStep (fs : FS) (data_dir : String) (longest : Nat)
    (acc : S2SAcc) (p : Nat × String × Nat × String × String) : Except PyErr S2SAcc := do
  let (si, ss, ti, ts, bn) := p
  let (_w, sp, _sm, tp, tm) ←
    seq2seq_build_file_table fs (spkDir data_dir ss) si (spkDir data_dir ts) ti bn longest
  let acc1 := statStep acc si sp _sm
  .ok { acc1 with
        src_dt := acc1.src_dt ++ [sp], trg_dt := acc1.trg_dt ++ [tp],
        src_masks := acc1.src_masks ++ [_sm], trg_masks := acc1.trg_masks ++ [tm] }

structure Datatable where
  src_datatable : List Table
  src_mask : Table
  trg_datatable : List Table
  trg_mask : Table
  max_seq_length : Nat
  speakers_max : Table
  speakers_min : Table
deriving DecidableEq, Repr

/-- reshape(-1, longest_seq) of a stacked list of (longest, 1) masks: one
row per pair. -/
def flattenMask (m : Table) : Row := m.map (fun r => r.headD 0)

/-- Lines 205-296. -/
def seq2seq_construct_datatable (fs : FS) (tfs : TextFS)
    (data_dir speakers_file basenames_file : String) :
    Except PyErr (List String × Datatable) := do
  let w1 ← dir_slash_check data_dir "Please, make sure the data directory string ends with a '/'"
  let speakers := linesOf tfs data_dir speakers_file
  let basenames := linesOf tfs data_dir basenames_file
  let (w2, longest) ← find_longest_sequence fs data_dir speakers basenames
  let acc ← (pairsOf speakers basenames).foldlM (constructStep fs data_dir longest) initAcc
  .ok (w1 ++ w2,
    ⟨acc.src_dt, acc.src_masks.map flattenMask, acc.trg_dt, acc.trg_masks.map flattenMask,
     longest, acc.spk_max, acc.spk_min⟩)

inductive H5Data where
  | arr3 (a : List Table)
  | arr2 (a : Table)
deriving DecidableEq, Repr

inductive H5Attr where
  | intAttr (n : Nat)
  | matAttr (m : Table)
deriving DecidableEq, Repr

/-- The persisted container: named attributes plus named datasets.  The
h5py encoding (float64 datasets, gzip compression) is lossless, so the
contents are modelled exactly. -/
structure H5File where
  attrs : List (String × H5Attr)
  datasets : List (String × H5Data)
deriving DecidableEq, Repr

/-- Lines 339-363: the attribute writes followed by the dataset writes in
the data_dict insertion order. -/
def writeDatatableFile (d : Datatable) : H5File :=
  { attrs := [("max_seq_length", .intAttr d.max_seq_length),
              ("speakers_max", .matAttr d.speakers_max),
              ("speakers_min", .matAttr d.speakers_min)],
    datasets := [("src_datatable", .arr3 d.src_datatable),
                 ("trg_datatable", .arr3 d.trg_datatable),
                 ("src_mask", .arr2 d.src_mask),
                 ("trg_mask", .arr2 d.trg_mask)] }

/-- Lines 299-371.  The advisory type check on the output filename is a
tautology here since the argument is statically a string. -/
def seq2seq_save_datatable (fs : FS) (tfs : TextFS) (data_dir : String) :
    Except PyErr (List String × H5File × Datatable) := do
  let w1 ← dir_slash_check data_dir "Please, make sure the data directory string ends with a '/'"
  let (w2, d) ← seq2seq_construct_datatable fs tfs data_dir "speakers.list"
    "seq2seq_basenames.list"
  .ok (w1 ++ w2, writeDatatableFile d, d)

/-- Lines 374-408. -/
def seq2seq2_load_datatable (f : H5File) : Option Datatable := do
  let d1 ← f.datasets.lookup "src_datatable"
  let d2 ← f.datasets.lookup "trg_datatable"
  let d3 ← f.datasets.lookup "src_mask"
  let d4 ← f.datasets.lookup "trg_mask"
  let a1 ← f.attrs.lookup "max_seq_length"
  let a2 ← f.attrs.lookup "speakers_max"
  let a3 ← f.attrs.lookup "speakers_min"
  match d1, d2, d3, d4, a1, a2, a3 with
  | .arr3 sd, .arr3 td, .arr2 sm, .arr2 tm, .intAttr L, .matAttr mx, .matAttr mn =>
    some ⟨sd, sm, td, tm, L, mx, mn⟩
  | _, _, _, _, _, _, _ => none

/-! ### Derived values and well-formedness predicates used by the proofs -/

/-- All rows of a table have width w. -/
def RowsW (m : Table) (w : Nat) : Prop := ∀ r ∈ m, r.length = w

/-- The value produced by the end-of-sequence initialisation on a nonempty
table. -/
def eosRows (m : Table) : Table :=
  List.replicate (m.length - 1) (List.replicate (m.headD []).length (0:ℚ)) ++
    [List.replicate (m.headD []).length (1:ℚ)]

/-- The value produced by front ('src') zero-padding. -/
def padFront (L : Nat) (m : Table) : Table :=
  List.replicate (L - m.length) (List.replicate (m.headD []).length (0:ℚ)) ++ m

/-- The value produced by back ('trg') zero-padding. -/
def padBack (L : Nat) (m : Table) : Table :=
  m ++ List.replicate (L - m.length) (List.replicate (m.headD []).length (0:ℚ))

/-- The explicit source mask value. -/
def srcMask (L n : Nat) : Table :=
  List.replicate (L - n) [(0:ℚ)] ++ List.replicate n [(1:ℚ)]

/-- The explicit target mask value. -/
def trgMask (L n : Nat) : Table :=
  List.replicate n [(1:ℚ)] ++ List.replicate (L - n) [(0:ℚ)]

/-- The true frame count of one side of a pair: the row count of its
spectral stream. -/
def sideLen (fs : FS) (dir bn : String) : Nat := (fs 40 (mcpPath dir bn)).length

/-- Well-formedness of the five parameter files of one (speaker-directory,
basename) side: the corpus invariant of spec section 3 (raw and
interpolated variants, and all streams of one utterance, have identical
frame counts), a nonempty sequence, and the global longest-sequence bound. -/
structure SideWF (fs : FS) (dir bn : String) (longest : Nat) : Prop where
  f0_len : (fs 1 (lf0FilePath dir bn)).length = sideLen fs dir bn
  f0i_len : (fs 1 (lf0iFilePath dir bn)).length = sideLen fs dir bn
  vf_len : (fs 1 (vfFilePath dir bn)).length = sideLen fs dir bn
  vfi_len : (fs 1 (vfiFilePath dir bn)).length = sideLen fs dir bn
  pos : 0 < sideLen fs dir bn
  le : sideLen fs dir bn ≤ longest

/-- The source feature matrix the builder assembles (lines 184-192):
column-wise concatenation of the front-padded streams in source order. -/
def srcParamsOf (fs : FS) (sdir tdir bn : String) (si ti L : Nat) : Table :=
  hconcat [padFront L (fs 40 (mcpPath sdir bn)),
           padFront L (fs 1 (lf0iFilePath sdir bn)),
           padFront L (fs 1 (vfiFilePath sdir bn)),
           padFront L (voicedFlags (fs 1 (vfFilePath sdir bn))),
           padFront L (eosRows (fs 1 (vfFilePath sdir bn))),
           padFront L (to_categorical si (fs 1 (vfFilePath sdir bn)).length),
           padFront L (to_categorical ti (fs 1 (vfFilePath tdir bn)).length)]

/-- The target feature matrix the builder assembles (lines 194-200):
column-wise concatenation of the back-padded streams in target order. -/
def trgParamsOf (fs : FS) (tdir bn : String) (L : Nat) : Table :=
  hconcat [padBack L (fs 40 (mcpPath tdir bn)),
           padBack L (fs 1 (lf0iFilePath tdir bn)),
           padBack L (fs 1 (vfiFilePath tdir bn)),
           padBack L (voicedFlags (fs 1 (vfFilePath tdir bn))),
           padBack L (eosRows (fs 1 (vfFilePath tdir bn)))]

/-- Entry (i, j) of a 2D table, 0 outside the table. -/
def entryOf (m : Table) (i j : Nat) : ℚ := (m.getD i []).getD j 0

/-- Column j of a table, as the list of its values (one per row). -/
def colValues (t : Table) (j : Nat) : Row := t.map (fun r => r.getD j 0)

/-- The first 42 source-feature columns (spectral, interpolated F0,
interpolated voicing) of the true, non-padded frames of one pair, read
straight from the parameter files; this follows the spec wording of the
statistics contract (sections 3 and 8). -/
def trueSourceFrames (fs : FS) (dir bn : String) : Table :=
  hcat (fs 40 (mcpPath dir bn)) (hcat (fs 1 (lf0iFilePath dir bn)) (fs 1 (vfiFilePath dir bn)))

/-- All non-padded source frames of all pairs in which speaker s is the
source, in corpus iteration order (one copy per target speaker, per
basename); follows the spec wording of the statistics contract. -/
def speakerSourceFrames (fs : FS) (data_dir : String) (speakers basenames : List String)
    (s : String) : Table :=
  speakers.flatMap (fun _t =>
    basenames.flatMap (fun bn => trueSourceFrames fs (spkDir data_dir s) bn))

/-- Shape invariant of the statistics accumulator: two 10 x 42 matrices. -/
def AccStatWF (acc : S2SAcc) : Prop :=
  acc.spk_max.length = 10 ∧ acc.spk_min.length = 10 ∧
    RowsW acc.spk_max 42 ∧ RowsW acc.spk_min 42

/-- The value one loop iteration of the assembler produces on well-formed
data (the Except wrapper stripped). -/
def pairUpdate (fs : FS) (data_dir : String) (L : Nat)
    (acc : S2SAcc) (p : Nat × String × Nat × String × String) : S2SAcc :=
  let sp := srcParamsOf fs (spkDir data_dir p.2.1) (spkDir data_dir p.2.2.2.1) p.2.2.2.2 p.1
    p.2.2.1 L
  let sm := srcMask L (sideLen fs (spkDir data_dir p.2.1) p.2.2.2.2)
  let tp := trgParamsOf fs (spkDir data_dir p.2.2.2.1) p.2.2.2.2 L
  let tm := trgMask L (sideLen fs (spkDir data_dir p.2.2.2.1) p.2.2.2.2)
  let acc1 := statStep acc p.1 sp sm
  { acc1 with
    src_dt := acc1.src_dt ++ [sp], trg_dt := acc1.trg_dt ++ [tp],
    src_masks := acc1.src_masks ++ [sm], trg_masks := acc1.trg_masks ++ [tm] }

/-- Well-formedness of the two sides of one loop iteration. -/
def PairWF (fs : FS) (data_dir : String) (L : Nat)
    (p : Nat × String × Nat × String × String) : Prop :=
  SideWF fs (spkDir data_dir p.2.1) p.2.2.2.2 L ∧
    SideWF fs (spkDir data_dir p.2.2.2.1) p.2.2.2.2 L

/-! ### Concrete corpora used as witnesses and counterexamples -/

/-- A one-speaker, one-utterance corpus in which every parameter file has
exactly one frame, every value being -1. -/
def fsA : FS := fun w _ => [List.replicate w (-1 : ℚ)]

/-- List files for the fsA corpus: one speaker A, one basename u. -/
def tfsA : TextFS := fun p => if p = "d/speakers.list" then ["A"] else ["u"]

/-- A corpus whose source interpolated-F0 file has one frame while every
other file has two: the raw and interpolated variants disagree in shape. -/
def fsB : FS := fun w p =>
  if p = "s/u.lf0.i.dat" then [[(5:ℚ)]]
  else [List.replicate w (5:ℚ), List.replicate w (5:ℚ)]

/-- A corpus whose source voicing file has two frames while every other
file has one: voicing and F0 disagree in shape. -/
def fsC : FS := fun w p =>
  if p = "s/u.vf.dat" then [[(5:ℚ)], [(5:ℚ)]]
  else [List.replicate w (5:ℚ)]

/-- The datatable the assembler produces on the fsA corpus. -/
def dtA : Datatable :=
  { src_datatable := [[List.replicate 40 (-1:ℚ) ++ [-1, -1, 1, 1] ++
      ((1:ℚ) :: List.replicate 9 0) ++ ((1:ℚ) :: List.replicate 9 0)]],
    src_mask := [[1]],
    trg_datatable := [[List.replicate 40 (-1:ℚ) ++ [-1, -1, 1, 1]]],
    trg_mask := [[1]],
    max_seq_length := 1,
    speakers_max := List.replicate 10 (List.replicate 42 0),
    speakers_min := List.replicate 42 (-1:ℚ) :: List.replicate 9 (List.replicate 42 sentinel) }

/-! ### Generic list lemmas -/

section FoldOrder

variable {α : Type} [LinearOrder α]

lemma le_foldl_max (l : List α) (a : α) : a ≤ l.foldl max a := by
  induction l generalizing a with
  | nil => simp
  | cons x xs ih => exact le_trans (le_max_left a x) (ih (max a x))

lemma mem_le_foldl_max {l : List α} {x : α} (hx : x ∈ l) (a : α) : x ≤ l.foldl max a := by
  induction l generalizing a with
  | nil => cases hx
  | cons y ys ih =>
    rcases List.mem_cons.mp hx with h | h
    · subst h
      exact le_trans (le_max_right a x) (le_foldl_max ys (max a x))
    · exact ih h (max a y)

lemma foldl_max_eq_init_or_mem (l : List α) (a : α) :
    l.foldl max a = a ∨ l.foldl max a ∈ l := by
  induction l generalizing a with
  | nil => exact Or.inl rfl
  | cons x xs ih =>
    rcases ih (max a x) with h | h
    · rcases max_choice a x with hm | hm
      · exact Or.inl (by rw [List.foldl_cons, h, hm])
      · exact Or.inr (by rw [List.foldl_cons, h, hm]; exact List.mem_cons_self x xs)
    · exact Or.inr (List.mem_cons_of_mem x h)

lemma foldl_max_init_comm (l : List α) (a b : α) :
    max b (l.foldl max a) = l.foldl max (max b a) := by
  induction l generalizing a with
  | nil => rfl
  | cons x xs ih =>
    rw [List.foldl_cons, List.foldl_cons, ih (max a x), max_assoc]

lemma foldl_min_le (l : List α) (a : α) : l.foldl min a ≤ a := by
  induction l generalizing a with
  | nil => simp
  | cons x xs ih => exact le_trans (ih (min a x)) (min_le_left a x)

lemma foldl_min_le_mem {l : List α} {x : α} (hx : x ∈ l) (a : α) : l.foldl min a ≤ x := by
  induction l generalizing a with
  | nil => cases hx
  | cons y ys ih =>
    rcases List.mem_cons.mp hx with h | h
    · subst h
      exact le_trans (foldl_min_le ys (min a x)) (min_le_right a x)
    · exact ih h (min a y)

lemma foldl_min_eq_init_or_mem (l : List α) (a : α) :
    l.foldl min a = a ∨ l.foldl min a ∈ l := by
  induction l generalizing a with
  | nil => exact Or.inl rfl
  | cons x xs ih =>
    rcases ih (min a x) with h | h
    · rcases min_choice a x with hm | hm
      · exact Or.inl (by rw [List.foldl_cons, h, hm])
      · exact Or.inr (by rw [List.foldl_cons, h, hm]; exact List.mem_cons_self x xs)
    · exact Or.inr (List.mem_cons_of_mem x h)

lemma foldl_min_init_comm (l : List α) (a b : α) :
    min b (l.foldl min a) = l.foldl min (min b a) := by
  induction l generalizing a with
  | nil => rfl
  | cons x xs ih =>
    rw [List.foldl_cons, List.foldl_cons, ih (min a x), min_assoc]

end FoldOrder

lemma getD_zipWith_of_lt {f : ℚ → ℚ → ℚ} {a b : Row} {i : Nat}
    (ha : i < a.length) (hb : i < b.length) :
    (List.zipWith f a b).getD i 0 = f (a.getD i 0) (b.getD i 0) := by
  rw [List.getD_eq_getElem _ _ (by rw [List.length_zipWith]; omega),
      List.getD_eq_getElem _ _ ha, List.getD_eq_getElem _ _ hb, List.getElem_zipWith]

lemma rowsW_map_length {m : Table} {w : Nat} (h : RowsW m w) :
    m.map (fun r => r.length) = List.replicate m.length w := by
  refine List.eq_replicate_iff.2 ⟨by simp, ?_⟩
  intro b hb
  obtain ⟨r, hr, hrb⟩ := List.mem_map.mp hb
  exact hrb ▸ h r hr

lemma shapeOf_eq_of_rowsW {a b : Table} {w : Nat} (ha : RowsW a w) (hb : RowsW b w)
    (hl : a.length = b.length) : shapeOf a = shapeOf b := by
  unfold shapeOf
  rw [rowsW_map_length ha, rowsW_map_length hb, hl]

lemma rowsW_append {a b : Table} {w : Nat} (ha : RowsW a w) (hb : RowsW b w) :
    RowsW (a ++ b) w := by
  intro r hr
  rcases List.mem_append.mp hr with h | h
  · exact ha r h
  · exact hb r h

lemma rowsW_replicate (k w : Nat) (x : ℚ) :
    RowsW (List.replicate k (List.replicate w x)) w := by
  intro r hr
  rw [List.eq_of_mem_replicate hr]
  simp

lemma rowsW_hcat {a b : Table} {wa wb : Nat} (ha : RowsW a wa) (hb : RowsW b wb) :
    RowsW (hcat a b) (wa + wb) := by
  induction a generalizing b with
  | nil => intro r hr; simp [hcat] at hr
  | cons x xs ih =>
    intro r hr
    cases b with
    | nil => simp [hcat] at hr
    | cons y ys =>
      rcases List.mem_cons.mp hr with h | h
      · subst h
        rw [List.length_append, ha x (List.mem_cons_self x xs), hb y (List.mem_cons_self y ys)]
      · exact ih (fun r hr => ha r (List.mem_cons_of_mem x hr))
          (fun r hr => hb r (List.mem_cons_of_mem y hr)) r h

lemma length_hcat (a b : Table) : (hcat a b).length = min a.length b.length := by
  simp [hcat]

/-! ### Success characterisation of the elementary steps -/

lemma assertE_ok {b : Prop} [Decidable b] (h : b) : assertE b = .ok () := by
  unfold assertE
  exact if_pos h

lemma string_empty_of_length_zero {p : String} (h : p.length = 0) : p = "" := by
  cases p with
  | mk d =>
    cases d with
    | nil => rfl
    | cons c cs => simp [String.length] at h

lemma dir_slash_check_ok {p : String} (msg : String) (h1 : p ≠ "") (h2 : p.back = '/') :
    dir_slash_check p msg = .ok [] := by
  unfold dir_slash_check
  rw [if_neg (fun h => h1 (string_empty_of_length_zero h)), if_pos h2]

lemma dir_slash_check_warn {p : String} (msg : String) (h1 : p ≠ "") (h2 : p.back ≠ '/') :
    dir_slash_check p msg = .ok [msg] := by
  unfold dir_slash_check
  rw [if_neg (fun h => h1 (string_empty_of_length_zero h)), if_neg h2]

lemma eosFlag_ok {m : Table} (h : m ≠ []) : eosFlag m = .ok (eosRows m) := by
  cases m with
  | nil => exact absurd rfl h
  | cons r rs => rfl

lemma length_eosRows {m : Table} (h : m ≠ []) : (eosRows m).length = m.length := by
  unfold eosRows
  rw [List.length_append, List.length_replicate]
  have : 0 < m.length := List.length_pos.2 h
  simp
  omega

lemma zero_pad_params_src_ok {L : Nat} {m : Table} (h : m.length ≤ L) :
    zero_pad_params L "src" m = .ok (padFront L m) := by
  unfold zero_pad_params padFront
  rw [if_neg (not_lt.2 h)]
  rfl

lemma zero_pad_params_trg_ok {L : Nat} {m : Table} (h : m.length ≤ L) :
    zero_pad_params L "trg" m = .ok (padBack L m) := by
  unfold zero_pad_params padBack
  rw [if_neg (not_lt.2 h)]
  rfl

lemma length_padFront {L : Nat} {m : Table} (h : m.length ≤ L) :
    (padFront L m).length = L := by
  unfold padFront
  rw [List.length_append, List.length_replicate]
  omega

lemma length_padBack {L : Nat} {m : Table} (h : m.length ≤ L) :
    (padBack L m).length = L := by
  unfold padBack
  rw [List.length_append, List.length_replicate]
  omega

lemma rowsW_padFront {m : Table} {w : Nat} (L : Nat) (hm : RowsW m w) (hne : m ≠ []) :
    RowsW (padFront L m) w := by
  refine rowsW_append ?_ hm
  have hh : (m.headD []).length = w := by
    cases m with
    | nil => exact absurd rfl hne
    | cons r rs => exact hm r (List.mem_cons_self r rs)
  rw [hh]
  exact rowsW_replicate _ _ _

lemma rowsW_padBack {m : Table} {w : Nat} (L : Nat) (hm : RowsW m w) (hne : m ≠ []) :
    RowsW (padBack L m) w := by
  refine rowsW_append hm ?_
  have hh : (m.headD []).length = w := by
    cases m with
    | nil => exact absurd rfl hne
    | cons r rs => exact hm r (List.mem_cons_self r rs)
  rw [hh]
  exact rowsW_replicate _ _ _

lemma rowsW_voicedFlags {m : Table} {w : Nat} (hm : RowsW m w) :
    RowsW (voicedFlags m) w := by
  intro r hr
  obtain ⟨s, hs, hsr⟩ := List.mem_map.mp hr
  rw [← hsr, List.length_map]
  exact hm s hs

lemma length_voicedFlags (m : Table) : (voicedFlags m).length = m.length := by
  simp [voicedFlags]

lemma rowsW_eosRows {m : Table} {w : Nat} (hm : RowsW m w) (hne : m ≠ []) :
    RowsW (eosRows m) w := by
  have hh : (m.headD []).length = w := by
    cases m with
    | nil => exact absurd rfl hne
    | cons r rs => exact hm r (List.mem_cons_self r rs)
  unfold eosRows
  rw [hh]
  exact rowsW_append (rowsW_replicate _ _ _) (rowsW_replicate 1 _ _)

lemma rowsW_to_categorical (idx n : Nat) : RowsW (to_categorical idx n) 10 := by
  intro r hr
  rw [List.eq_of_mem_replicate hr]
  simp

lemma length_to_categorical (idx n : Nat) : (to_categorical idx n).length = n := by
  simp [to_categorical]

lemma sourceMaskOf_ok {L n : Nat} (h : n ≤ L) : sourceMaskOf L n = .ok (srcMask L n) := by
  unfold sourceMaskOf srcMask
  rw [if_neg (not_lt.2 h)]

lemma targetMaskOf_ok {L n : Nat} (h : n ≤ L) : targetMaskOf L n = .ok (trgMask L n) := by
  unfold targetMaskOf trgMask
  rw [if_neg (not_lt.2 h)]

lemma length_srcMask {L n : Nat} (h : n ≤ L) : (srcMask L n).length = L := by
  unfold srcMask
  rw [List.length_append, List.length_replicate, List.length_replicate]
  omega

lemma length_trgMask {L n : Nat} (h : n ≤ L) : (trgMask L n).length = L := by
  unfold trgMask
  rw [List.length_append, List.length_replicate, List.length_replicate]
  omega

lemma rowsW_srcMask (L n : Nat) : RowsW (srcMask L n) 1 := by
  refine rowsW_append ?_ ?_ <;>
    · intro r hr
      rw [List.eq_of_mem_replicate hr]
      rfl

lemma rowsW_trgMask (L n : Nat) : RowsW (trgMask L n) 1 := by
  refine rowsW_append ?_ ?_ <;>
    · intro r hr
      rw [List.eq_of_mem_replicate hr]
      rfl

/-! ### Characterisation of seq2seq_build_file_table on well-formed inputs -/

lemma ok_bind {ε α β : Type} (a : α) (f : α → Except ε β) :
    (Except.ok a : Except ε α) >>= f = f a := rfl

theorem build_file_core_ok (fs : FS) (sdir tdir bn : String) (si ti L : Nat)
    (hfs : ParsedWF fs) (hs : SideWF fs sdir bn L) (ht : SideWF fs tdir bn L) :
    build_file_core fs sdir si tdir ti bn L =
      .ok (srcParamsOf fs sdir tdir bn si ti L, srcMask L (sideLen fs sdir bn),
           trgParamsOf fs tdir bn L, trgMask L (sideLen fs tdir bn)) := by
  have hsvf_ne : fs 1 (vfFilePath sdir bn) ≠ [] :=
    List.length_pos.mp (by rw [hs.vf_len]; exact hs.pos)
  have htvf_ne : fs 1 (vfFilePath tdir bn) ≠ [] :=
    List.length_pos.mp (by rw [ht.vf_len]; exact ht.pos)
  have e1 : assertE (shapeOf (fs 1 (vfFilePath sdir bn)) = shapeOf (fs 1 (lf0FilePath sdir bn)))
      = .ok () :=
    assertE_ok (shapeOf_eq_of_rowsW (fun r hr => hfs 1 _ r hr) (fun r hr => hfs 1 _ r hr)
      (hs.vf_len.trans hs.f0_len.symm))
  have e2 : assertE (shapeOf (fs 1 (vfFilePath tdir bn)) = shapeOf (fs 1 (lf0FilePath tdir bn)))
      = .ok () :=
    assertE_ok (shapeOf_eq_of_rowsW (fun r hr => hfs 1 _ r hr) (fun r hr => hfs 1 _ r hr)
      (ht.vf_len.trans ht.f0_len.symm))
  have e3 : eosFlag (fs 1 (vfFilePath sdir bn)) = .ok (eosRows (fs 1 (vfFilePath sdir bn))) :=
    eosFlag_ok hsvf_ne
  have e4 : eosFlag (fs 1 (vfFilePath tdir bn)) = .ok (eosRows (fs 1 (vfFilePath tdir bn))) :=
    eosFlag_ok htvf_ne
  have e5 : sourceMaskOf L (fs 40 (mcpPath sdir bn)).length =
      .ok (srcMask L (sideLen fs sdir bn)) := sourceMaskOf_ok hs.le
  have e6 : targetMaskOf L (fs 40 (mcpPath tdir bn)).length =
      .ok (trgMask L (sideLen fs tdir bn)) := targetMaskOf_ok ht.le
  have e7 : assertE (shapeOf (srcMask L (sideLen fs sdir bn)) =
      shapeOf (trgMask L (sideLen fs tdir bn))) = .ok () :=
    assertE_ok (shapeOf_eq_of_rowsW (rowsW_srcMask _ _) (rowsW_trgMask _ _)
      (by rw [length_srcMask hs.le, length_trgMask ht.le]))
  have p1 : zero_pad_params L "src" (fs 40 (mcpPath sdir bn)) =
      .ok (padFront L (fs 40 (mcpPath sdir bn))) := zero_pad_params_src_ok hs.le
  have p2 : zero_pad_params L "src" (fs 1 (lf0iFilePath sdir bn)) =
      .ok (padFront L (fs 1 (lf0iFilePath sdir bn))) :=
    zero_pad_params_src_ok (by rw [hs.f0i_len]; exact hs.le)
  have p3 : zero_pad_params L "src" (fs 1 (vfiFilePath sdir bn)) =
      .ok (padFront L (fs 1 (vfiFilePath sdir bn))) :=
    zero_pad_params_src_ok (by rw [hs.vfi_len]; exact hs.le)
  have p4 : zero_pad_params L "src" (voicedFlags (fs 1 (vfFilePath sdir bn))) =
      .ok (padFront L (voicedFlags (fs 1 (vfFilePath sdir bn)))) :=
    zero_pad_params_src_ok (by rw [length_voicedFlags, hs.vf_len]; exact hs.le)
  have p5 : zero_pad_params L "src" (eosRows (fs 1 (vfFilePath sdir bn))) =
      .ok (padFront L (eosRows (fs 1 (vfFilePath sdir bn)))) :=
    zero_pad_params_src_ok (by rw [length_eosRows hsvf_ne, hs.vf_len]; exact hs.le)
  have p6 : zero_pad_params L "src" (to_categorical si (fs 1 (vfFilePath sdir bn)).length) =
      .ok (padFront L (to_categorical si (fs 1 (vfFilePath sdir bn)).length)) :=
    zero_pad_params_src_ok (by rw [length_to_categorical, hs.vf_len]; exact hs.le)
  have p7 : zero_pad_params L "src" (to_categorical ti (fs 1 (vfFilePath tdir bn)).length) =
      .ok (padFront L (to_categorical ti (fs 1 (vfFilePath tdir bn)).length)) :=
    zero_pad_params_src_ok (by rw [length_to_categorical, ht.vf_len]; exact ht.le)
  have q1 : zero_pad_params L "trg" (fs 40 (mcpPath tdir bn)) =
      .ok (padBack L (fs 40 (mcpPath tdir bn))) := zero_pad_params_trg_ok ht.le
  have q2 : zero_pad_params L "trg" (fs 1 (lf0iFilePath tdir bn)) =
      .ok (padBack L (fs 1 (lf0iFilePath tdir bn))) :=
    zero_pad_params_trg_ok (by rw [ht.f0i_len]; exact ht.le)
  have q3 : zero_pad_params L "trg" (fs 1 (vfiFilePath tdir bn)) =
      .ok (padBack L (fs 1 (vfiFilePath tdir bn))) :=
    zero_pad_params_trg_ok (by rw [ht.vfi_len]; exact ht.le)
  have q4 : zero_pad_params L "trg" (voicedFlags (fs 1 (vfFilePath tdir bn))) =
      .ok (padBack L (voicedFlags (fs 1 (vfFilePath tdir bn)))) :=
    zero_pad_params_trg_ok (by rw [length_voicedFlags, ht.vf_len]; exact ht.le)
  have q5 : zero_pad_params L "trg" (eosRows (fs 1 (vfFilePath tdir bn))) =
      .ok (padBack L (eosRows (fs 1 (vfFilePath tdir bn)))) :=
    zero_pad_params_trg_ok (by rw [length_eosRows htvf_ne, ht.vf_len]; exact ht.le)
  simp only [build_file_core, parse_file, e1, e2, e3, e4, e5, e6, e7,
    p1, p2, p3, p4, p5, p6, p7, q1, q2, q3, q4, q5, ok_bind,
    srcParamsOf, trgParamsOf]

theorem seq2seq_build_file_table_ok (fs : FS) (sdir tdir bn : String) (si ti : Nat) (L : Nat)
    (hfs : ParsedWF fs) (hs : SideWF fs sdir bn L) (ht : SideWF fs tdir bn L)
    (hsd : sdir ≠ "") (hsd' : sdir.back = '/') (htd : tdir ≠ "") (htd' : tdir.back = '/') :
    seq2seq_build_file_table fs sdir si tdir ti bn L =
      .ok ([], (srcParamsOf fs sdir tdir bn si ti L, srcMask L (sideLen fs sdir bn),
                trgParamsOf fs tdir bn L, trgMask L (sideLen fs tdir bn))) := by
  simp only [seq2seq_build_file_table, dir_slash_check_ok _ hsd hsd',
    dir_slash_check_ok _ htd htd', ok_bind,
    build_file_core_ok fs sdir tdir bn si ti L hfs hs ht, List.nil_append]

/-! ### Further elementary lemmas -/

lemma assertE_fail {b : Prop} [Decidable b] (h : ¬ b) : assertE b = .error .assertionError := by
  unfold assertE
  exact if_neg h

lemma error_bind {ε α β : Type} (e : ε) (f : α → Except ε β) :
    (Except.error e : Except ε α) >>= f = .error e := rfl

lemma getD_replicate_lt {α : Type} {x : α} {k i : Nat} (h : i < k) (d : α) :
    (List.replicate k x).getD i d = x := by
  rw [List.getD_eq_getElem _ _ (by simpa using h), List.getElem_replicate]

lemma voicedFlags_entry (m : Table) {i j : Nat} (hi : i < m.length)
    (hj : j < (m.getD i []).length) :
    ((voicedFlags m).getD i []).getD j 0 =
      1 - kronecker_delta ((m.getD i []).getD j 0) := by
  have hmap : (voicedFlags m).getD i [] = (m.getD i []).map (fun v => 1 - kronecker_delta v) := by
    rw [List.getD_eq_getElem _ _ hi,
      List.getD_eq_getElem _ _ (show i < (voicedFlags m).length by
        rw [length_voicedFlags]; exact hi)]
    simp [voicedFlags]
  rw [hmap, List.getD_eq_getElem _ _ hj,
    List.getD_eq_getElem _ _ (by simpa using hj), List.getElem_map]

lemma count_srcMask (L n : Nat) : (srcMask L n).count [(1:ℚ)] = n := by
  unfold srcMask
  rw [List.count_append, List.count_replicate, List.count_replicate]
  norm_num

lemma count_trgMask (L n : Nat) : (trgMask L n).count [(1:ℚ)] = n := by
  unfold trgMask
  rw [List.count_append, List.count_replicate, List.count_replicate]
  norm_num

/-- Shape and width of the assembled source feature matrix. -/
lemma srcParamsOf_shape (fs : FS) (sdir tdir bn : String) (si ti L : Nat)
    (hfs : ParsedWF fs) (hs : SideWF fs sdir bn L) (ht : SideWF fs tdir bn L) :
    RowsW (srcParamsOf fs sdir tdir bn si ti L) 64 ∧
      (srcParamsOf fs sdir tdir bn si ti L).length = L := by
  have hmcp_ne : fs 40 (mcpPath sdir bn) ≠ [] := List.length_pos.mp hs.pos
  have hf0i_ne : fs 1 (lf0iFilePath sdir bn) ≠ [] :=
    List.length_pos.mp (by rw [hs.f0i_len]; exact hs.pos)
  have hvfi_ne : fs 1 (vfiFilePath sdir bn) ≠ [] :=
    List.length_pos.mp (by rw [hs.vfi_len]; exact hs.pos)
  have hvf_ne : fs 1 (vfFilePath sdir bn) ≠ [] :=
    List.length_pos.mp (by rw [hs.vf_len]; exact hs.pos)
  have htvf_ne : fs 1 (vfFilePath tdir bn) ≠ [] :=
    List.length_pos.mp (by rw [ht.vf_len]; exact ht.pos)
  have hvoiced_ne : voicedFlags (fs 1 (vfFilePath sdir bn)) ≠ [] := by
    intro h
    exact hvf_ne (by simpa [voicedFlags] using h)
  have heos_ne : eosRows (fs 1 (vfFilePath sdir bn)) ≠ [] := by
    refine List.length_pos.mp ?_
    rw [length_eosRows hvf_ne, hs.vf_len]
    exact hs.pos
  have hcat1_ne : to_categorical si (fs 1 (vfFilePath sdir bn)).length ≠ [] := by
    refine List.length_pos.mp ?_
    rw [length_to_categorical, hs.vf_len]
    exact hs.pos
  have hcat2_ne : to_categorical ti (fs 1 (vfFilePath tdir bn)).length ≠ [] := by
    refine List.length_pos.mp ?_
    rw [length_to_categorical, ht.vf_len]
    exact ht.pos
  have w1 : RowsW (padFront L (fs 40 (mcpPath sdir bn))) 40 :=
    rowsW_padFront L (fun r hr => hfs 40 _ r hr) hmcp_ne
  have w2 : RowsW (padFront L (fs 1 (lf0iFilePath sdir bn))) 1 :=
    rowsW_padFront L (fun r hr => hfs 1 _ r hr) hf0i_ne
  have w3 : RowsW (padFront L (fs 1 (vfiFilePath sdir bn))) 1 :=
    rowsW_padFront L (fun r hr => hfs 1 _ r hr) hvfi_ne
  have w4 : RowsW (padFront L (voicedFlags (fs 1 (vfFilePath sdir bn)))) 1 :=
    rowsW_padFront L (rowsW_voicedFlags (fun r hr => hfs 1 _ r hr)) hvoiced_ne
  have w5 : RowsW (padFront L (eosRows (fs 1 (vfFilePath sdir bn)))) 1 :=
    rowsW_padFront L (rowsW_eosRows (fun r hr => hfs 1 _ r hr) hvf_ne) heos_ne
  have w6 : RowsW (padFront L (to_categorical si (fs 1 (vfFilePath sdir bn)).length)) 10 :=
    rowsW_padFront L (rowsW_to_categorical _ _) hcat1_ne
  have w7 : RowsW (padFront L (to_categorical ti (fs 1 (vfFilePath tdir bn)).length)) 10 :=
    rowsW_padFront L (rowsW_to_categorical _ _) hcat2_ne
  have l1 : (padFront L (fs 40 (mcpPath sdir bn))).length = L := length_padFront hs.le
  have l2 : (padFront L (fs 1 (lf0iFilePath sdir bn))).length = L :=
    length_padFront (by rw [hs.f0i_len]; exact hs.le)
  have l3 : (padFront L (fs 1 (vfiFilePath sdir bn))).length = L :=
    length_padFront (by rw [hs.vfi_len]; exact hs.le)
  have l4 : (padFront L (voicedFlags (fs 1 (vfFilePath sdir bn)))).length = L :=
    length_padFront (by rw [length_voicedFlags, hs.vf_len]; exact hs.le)
  have l5 : (padFront L (eosRows (fs 1 (vfFilePath sdir bn)))).length = L :=
    length_padFront (by rw [length_eosRows hvf_ne, hs.vf_len]; exact hs.le)
  have l6 : (padFront L (to_categorical si (fs 1 (vfFilePath sdir bn)).length)).length = L :=
    length_padFront (by rw [length_to_categorical, hs.vf_len]; exact hs.le)
  have l7 : (padFront L (to_categorical ti (fs 1 (vfFilePath tdir bn)).length)).length = L :=
    length_padFront (by rw [length_to_categorical, ht.vf_len]; exact ht.le)
  have hdef : srcParamsOf fs sdir tdir bn si ti L =
      hcat (hcat (hcat (hcat (hcat (hcat
        (padFront L (fs 40 (mcpPath sdir bn)))
        (padFront L (fs 1 (lf0iFilePath sdir bn))))
        (padFront L (fs 1 (vfiFilePath sdir bn))))
        (padFront L (voicedFlags (fs 1 (vfFilePath sdir bn)))))
        (padFront L (eosRows (fs 1 (vfFilePath sdir bn)))))
        (padFront L (to_categorical si (fs 1 (vfFilePath sdir bn)).length)))
        (padFront L (to_categorical ti (fs 1 (vfFilePath tdir bn)).length)) := rfl
  constructor
  · rw [hdef]
    have h64 : (64 : Nat) = 40 + 1 + 1 + 1 + 1 + 10 + 10 := by norm_num
    rw [h64]
    exact rowsW_hcat (rowsW_hcat (rowsW_hcat (rowsW_hcat (rowsW_hcat (rowsW_hcat w1 w2) w3)
      w4) w5) w6) w7
  · rw [hdef]
    simp only [length_hcat, l1, l2, l3, l4, l5, l6, l7, min_self]

/-- Shape and width of the assembled target feature matrix. -/
lemma trgParamsOf_shape (fs : FS) (tdir bn : String) (L : Nat)
    (hfs : ParsedWF fs) (ht : SideWF fs tdir bn L) :
    RowsW (trgParamsOf fs tdir bn L) 44 ∧ (trgParamsOf fs tdir bn L).length = L := by
  have hmcp_ne : fs 40 (mcpPath tdir bn) ≠ [] := List.length_pos.mp ht.pos
  have hf0i_ne : fs 1 (lf0iFilePath tdir bn) ≠ [] :=
    List.length_pos.mp (by rw [ht.f0i_len]; exact ht.pos)
  have hvfi_ne : fs 1 (vfiFilePath tdir bn) ≠ [] :=
    List.length_pos.mp (by rw [ht.vfi_len]; exact ht.pos)
  have hvf_ne : fs 1 (vfFilePath tdir bn) ≠ [] :=
    List.length_pos.mp (by rw [ht.vf_len]; exact ht.pos)
  have hvoiced_ne : voicedFlags (fs 1 (vfFilePath tdir bn)) ≠ [] := by
    intro h
    exact hvf_ne (by simpa [voicedFlags] using h)
  have heos_ne : eosRows (fs 1 (vfFilePath tdir bn)) ≠ [] := by
    refine List.length_pos.mp ?_
    rw [length_eosRows hvf_ne, ht.vf_len]
    exact ht.pos
  have w1 : RowsW (padBack L (fs 40 (mcpPath tdir bn))) 40 :=
    rowsW_padBack L (fun r hr => hfs 40 _ r hr) hmcp_ne
  have w2 : RowsW (padBack L (fs 1 (lf0iFilePath tdir bn))) 1 :=
    rowsW_padBack L (fun r hr => hfs 1 _ r hr) hf0i_ne
  have w3 : RowsW (padBack L (fs 1 (vfiFilePath tdir bn))) 1 :=
    rowsW_padBack L (fun r hr => hfs 1 _ r hr) hvfi_ne
  have w4 : RowsW (padBack L (voicedFlags (fs 1 (vfFilePath tdir bn)))) 1 :=
    rowsW_padBack L (rowsW_voicedFlags (fun r hr => hfs 1 _ r hr)) hvoiced_ne
  have w5 : RowsW (padBack L (eosRows (fs 1 (vfFilePath tdir bn)))) 1 :=
    rowsW_padBack L (rowsW_eosRows (fun r hr => hfs 1 _ r hr) hvf_ne) heos_ne
  have l1 : (padBack L (fs 40 (mcpPath tdir bn))).length = L := length_padBack ht.le
  have l2 : (padBack L (fs 1 (lf0iFilePath tdir bn))).length = L :=
    length_padBack (by rw [ht.f0i_len]; exact ht.le)
  have l3 : (padBack L (fs 1 (vfiFilePath tdir bn))).length = L :=
    length_padBack (by rw [ht.vfi_len]; exact ht.le)
  have l4 : (padBack L (voicedFlags (fs 1 (vfFilePath tdir bn)))).length = L :=
    length_padBack (by rw [length_voicedFlags, ht.vf_len]; exact ht.le)
  have l5 : (padBack L (eosRows (fs 1 (vfFilePath tdir bn)))).length = L :=
    length_padBack (by rw [length_eosRows hvf_ne, ht.vf_len]; exact ht.le)
  have hdef : trgParamsOf fs tdir bn L =
      hcat (hcat (hcat (hcat
        (padBack L (fs 40 (mcpPath tdir bn)))
        (padBack L (fs 1 (lf0iFilePath tdir bn))))
        (padBack L (fs 1 (vfiFilePath tdir bn))))
        (padBack L (voicedFlags (fs 1 (vfFilePath tdir bn)))))
        (padBack L (eosRows (fs 1 (vfFilePath tdir bn)))) := rfl
  constructor
  · rw [hdef]
    have h44 : (44 : Nat) = 40 + 1 + 1 + 1 + 1 := by norm_num
    rw [h44]
    exact rowsW_hcat (rowsW_hcat (rowsW_hcat (rowsW_hcat w1 w2) w3) w4) w5
  · rw [hdef]
    simp only [length_hcat, l1, l2, l3, l4, l5, min_self]

/-- The fsA corpus satisfies the parser contract. -/
lemma parsedWF_fsA : ParsedWF fsA := by
  intro w p r hr
  simp only [fsA, List.mem_singleton] at hr
  subst hr
  simp

/-- Any side of the fsA corpus is well-formed for longest length 1. -/
lemma sideWF_fsA (dir bn : String) : SideWF fsA dir bn 1 := by
  constructor <;> simp [fsA, sideLen]

/-! ### Claims C2, C4, C5, C6, C7 -/

/-- C2: for every pair built by seq2seq_build_file_table with true frame
count n <= longest_seq, the source mask is longest_seq - n zero rows then
n one rows, the target mask is n one rows then longest_seq - n zero rows,
each mask contains exactly n ones, and both masks have row count equal to
longest_seq. -/
theorem claim_C2_masks (fs : FS) (sdir tdir bn : String) (si ti L n : Nat)
    (hfs : ParsedWF fs) (hs : SideWF fs sdir bn L) (ht : SideWF fs tdir bn L)
    (hsd : sdir ≠ "") (hsd' : sdir.back = '/') (htd : tdir ≠ "") (htd' : tdir.back = '/')
    (hns : sideLen fs sdir bn = n) (hnt : sideLen fs tdir bn = n)
    (w : List String) (sp sm tp tm : Table)
    (hbuild : seq2seq_build_file_table fs sdir si tdir ti bn L = .ok (w, (sp, sm, tp, tm))) :
    sm = List.replicate (L - n) [(0:ℚ)] ++ List.replicate n [(1:ℚ)] ∧
    tm = List.replicate n [(1:ℚ)] ++ List.replicate (L - n) [(0:ℚ)] ∧
    sm.count [(1:ℚ)] = n ∧ tm.count [(1:ℚ)] = n ∧
    sm.length = L ∧ tm.length = L := by
  rw [seq2seq_build_file_table_ok fs sdir tdir bn si ti L hfs hs ht hsd hsd' htd htd'] at hbuild
  simp only [Except.ok.injEq, Prod.mk.injEq] at hbuild
  obtain ⟨-, -, hsm, -, htm⟩ := hbuild
  rw [hns] at hsm
  rw [hnt] at htm
  subst hsm htm
  have h1 : n ≤ L := hns ▸ hs.le
  refine ⟨rfl, rfl, count_srcMask L n, count_trgMask L n, length_srcMask h1, length_trgMask h1⟩

theorem claim_C2_masks_witness :
    ([[(1:ℚ)]] : Table) = List.replicate (1 - 1) [(0:ℚ)] ++ List.replicate 1 [(1:ℚ)] ∧
    ([[(1:ℚ)]] : Table) = List.replicate 1 [(1:ℚ)] ++ List.replicate (1 - 1) [(0:ℚ)] ∧
    ([[(1:ℚ)]] : Table).count [(1:ℚ)] = 1 ∧ ([[(1:ℚ)]] : Table).count [(1:ℚ)] = 1 ∧
    ([[(1:ℚ)]] : Table).length = 1 ∧ ([[(1:ℚ)]] : Table).length = 1 :=
  claim_C2_masks fsA "d/vocoded_s2s/A/" "d/vocoded_s2s/A/" "u" 0 0 1 1
    parsedWF_fsA (sideWF_fsA _ _) (sideWF_fsA _ _)
    (by decide) (by decide) (by decide) (by decide) rfl rfl
    [] (srcParamsOf fsA "d/vocoded_s2s/A/" "d/vocoded_s2s/A/" "u" 0 0 1) [[(1:ℚ)]]
    (trgParamsOf fsA "d/vocoded_s2s/A/" "u" 1) [[(1:ℚ)]] (by rfl)

/-- C4 as stated gives the source feature matrix 65 columns, but the
listed concatenation spectral(40) + F0(1) + voicing(1) + voiced(1) +
EOS(1) + one-hot(10) + one-hot(10) yields 64 columns: on the concrete fsA
corpus the built source row has 64 entries. -/
theorem claim_C4_counterexample :
    seq2seq_build_file_table fsA "d/vocoded_s2s/A/" 0 "d/vocoded_s2s/A/" 0 "u" 1 =
      .ok ([], (srcParamsOf fsA "d/vocoded_s2s/A/" "d/vocoded_s2s/A/" "u" 0 0 1, srcMask 1 1,
        trgParamsOf fsA "d/vocoded_s2s/A/" "u" 1, trgMask 1 1)) ∧
    ((srcParamsOf fsA "d/vocoded_s2s/A/" "d/vocoded_s2s/A/" "u" 0 0 1).getD 0 []).length = 64 ∧
    (64 : Nat) ≠ 65 :=
  ⟨by rfl, by decide, by decide⟩

/-- C4 (amended): the source feature matrix is the column-wise
concatenation, in this order, of zero-padded spectral(40),
interpolated-F0(1), interpolated-voicing(1), voiced-flag(1), EOS-flag(1),
source one-hot(10) and target one-hot(10), totalling 64 columns (not 65);
the target feature matrix concatenates spectral(40), interpolated-F0(1),
interpolated-voicing(1), voiced-flag(1) and EOS-flag(1), totalling 44
columns. -/
theorem claim_C4_feature_layout (fs : FS) (sdir tdir bn : String) (si ti L : Nat)
    (hfs : ParsedWF fs) (hs : SideWF fs sdir bn L) (ht : SideWF fs tdir bn L)
    (hsd : sdir ≠ "") (hsd' : sdir.back = '/') (htd : tdir ≠ "") (htd' : tdir.back = '/')
    (w : List String) (sp sm tp tm : Table)
    (hbuild : seq2seq_build_file_table fs sdir si tdir ti bn L = .ok (w, (sp, sm, tp, tm))) :
    sp = srcParamsOf fs sdir tdir bn si ti L ∧ RowsW sp 64 ∧ sp.length = L ∧
    tp = trgParamsOf fs tdir bn L ∧ RowsW tp 44 ∧ tp.length = L := by
  rw [seq2seq_build_file_table_ok fs sdir tdir bn si ti L hfs hs ht hsd hsd' htd htd'] at hbuild
  simp only [Except.ok.injEq, Prod.mk.injEq] at hbuild
  obtain ⟨-, hsp, -, htp, -⟩ := hbuild
  subst hsp htp
  obtain ⟨hw1, hl1⟩ := srcParamsOf_shape fs sdir tdir bn si ti L hfs hs ht
  obtain ⟨hw2, hl2⟩ := trgParamsOf_shape fs tdir bn L hfs ht
  exact ⟨rfl, hw1, hl1, rfl, hw2, hl2⟩

theorem claim_C4_feature_layout_witness :
    srcParamsOf fsA "d/vocoded_s2s/A/" "d/vocoded_s2s/A/" "u" 0 0 1 =
      srcParamsOf fsA "d/vocoded_s2s/A/" "d/vocoded_s2s/A/" "u" 0 0 1 ∧
    RowsW (srcParamsOf fsA "d/vocoded_s2s/A/" "d/vocoded_s2s/A/" "u" 0 0 1) 64 ∧
    (srcParamsOf fsA "d/vocoded_s2s/A/" "d/vocoded_s2s/A/" "u" 0 0 1).length = 1 ∧
    trgParamsOf fsA "d/vocoded_s2s/A/" "u" 1 = trgParamsOf fsA "d/vocoded_s2s/A/" "u" 1 ∧
    RowsW (trgParamsOf fsA "d/vocoded_s2s/A/" "u" 1) 44 ∧
    (trgParamsOf fsA "d/vocoded_s2s/A/" "u" 1).length = 1 :=
  claim_C4_feature_layout fsA "d/vocoded_s2s/A/" "d/vocoded_s2s/A/" "u" 0 0 1
    parsedWF_fsA (sideWF_fsA _ _) (sideWF_fsA _ _)
    (by decide) (by decide) (by decide) (by decide)
    [] (srcParamsOf fsA "d/vocoded_s2s/A/" "d/vocoded_s2s/A/" "u" 0 0 1) (srcMask 1 1)
    (trgParamsOf fsA "d/vocoded_s2s/A/" "u" 1) (trgMask 1 1) (by rfl)

/-- C5 as stated requires an assertion failure whenever a raw stream's
shape differs from its interpolated variant's shape; on the fsB corpus
the raw and interpolated source F0 shapes differ, yet the builder
returns successfully. -/
theorem claim_C5_counterexample :
    shapeOf (parse_file fsB 1 (lf0iFilePath "s/" "u")) ≠
      shapeOf (parse_file fsB 1 (lf0FilePath "s/" "u")) ∧
    (seq2seq_build_file_table fsB "s/" 0 "t/" 1 "u" 2).isOk = true :=
  ⟨by decide, by decide⟩

/-- C5 (amended): seq2seq_build_file_table fails fast with an assertion
failure whenever the voicing stream's shape differs from the raw F0
stream's shape, on either side; mismatches between a raw stream and its
interpolated variant are not checked and do not by themselves abort. -/
theorem claim_C5_shape_asserts (fs : FS) (sdir tdir bn : String) (si ti L : Nat)
    (hsd : sdir ≠ "") (hsd' : sdir.back = '/') (htd : tdir ≠ "") (htd' : tdir.back = '/') :
    (shapeOf (parse_file fs 1 (vfFilePath sdir bn)) ≠
        shapeOf (parse_file fs 1 (lf0FilePath sdir bn)) →
      seq2seq_build_file_table fs sdir si tdir ti bn L = .error .assertionError) ∧
    (shapeOf (parse_file fs 1 (vfFilePath sdir bn)) =
        shapeOf (parse_file fs 1 (lf0FilePath sdir bn)) →
      shapeOf (parse_file fs 1 (vfFilePath tdir bn)) ≠
        shapeOf (parse_file fs 1 (lf0FilePath tdir bn)) →
      seq2seq_build_file_table fs sdir si tdir ti bn L = .error .assertionError) := by
  constructor
  · intro hne
    have hne' : shapeOf (fs 1 (vfFilePath sdir bn)) ≠ shapeOf (fs 1 (lf0FilePath sdir bn)) := hne
    simp only [seq2seq_build_file_table, dir_slash_check_ok _ hsd hsd',
      dir_slash_check_ok _ htd htd', ok_bind, build_file_core, parse_file,
      assertE_fail hne', error_bind]
  · intro he hne
    have he' : shapeOf (fs 1 (vfFilePath sdir bn)) = shapeOf (fs 1 (lf0FilePath sdir bn)) := he
    have hne' : shapeOf (fs 1 (vfFilePath tdir bn)) ≠ shapeOf (fs 1 (lf0FilePath tdir bn)) := hne
    simp only [seq2seq_build_file_table, dir_slash_check_ok _ hsd hsd',
      dir_slash_check_ok _ htd htd', ok_bind, build_file_core, parse_file,
      assertE_ok he', assertE_fail hne', error_bind]

theorem claim_C5_shape_asserts_witness :
    seq2seq_build_file_table fsC "s/" 0 "t/" 1 "u" 2 = .error .assertionError :=
  (claim_C5_shape_asserts fsC "s/" "t/" "u" 0 1 2
    (by decide) (by decide) (by decide) (by decide)).1 (by decide)

/-- C6: the derived voiced flag at frame i equals 0 iff the raw voicing
value at frame i equals exactly 0, and equals 1 otherwise. -/
theorem claim_C6_voiced_flag (m : Table) (i j : Nat) (hi : i < m.length)
    (hj : j < (m.getD i []).length) :
    (((voicedFlags m).getD i []).getD j 0 = 0 ↔ (m.getD i []).getD j 0 = 0) ∧
    ((m.getD i []).getD j 0 ≠ 0 → ((voicedFlags m).getD i []).getD j 0 = 1) := by
  rw [voicedFlags_entry m hi hj]
  unfold kronecker_delta
  by_cases h : (m.getD i []).getD j 0 = 0
  · rw [if_pos h]
    refine ⟨⟨fun _ => h, fun _ => by norm_num⟩, fun hraw => absurd h hraw⟩
  · rw [if_neg h]
    refine ⟨⟨fun h10 => by norm_num at h10, fun h0 => absurd h0 h⟩, fun _ => by norm_num⟩

theorem claim_C6_voiced_flag_witness :
    ((((voicedFlags [[(0:ℚ), 5]]).getD 0 []).getD 1 0 = 0 ↔
      (([[(0:ℚ), 5]] : Table).getD 0 []).getD 1 0 = 0)) ∧
    ((([[(0:ℚ), 5]] : Table).getD 0 []).getD 1 0 ≠ 0 →
      ((voicedFlags [[(0:ℚ), 5]]).getD 0 []).getD 1 0 = 1) :=
  claim_C6_voiced_flag [[(0:ℚ), 5]] 0 1 (by decide) (by decide)

/-- C7: for every nonempty input, the end-of-sequence flag column is zero
at every frame except the last true frame, where it is exactly 1, and it
contains exactly one 1 in total. -/
theorem claim_C7_eos_flag (m : Table) (hne : m ≠ []) (h1 : RowsW m 1) :
    eosFlag m = .ok (eosRows m) ∧
    (∀ i, i < m.length →
      (eosRows m).getD i [] = if i = m.length - 1 then [(1:ℚ)] else [(0:ℚ)]) ∧
    (eosRows m).count [(1:ℚ)] = 1 := by
  have hw : (m.headD []).length = 1 := by
    cases m with
    | nil => exact absurd rfl hne
    | cons r rs => exact h1 r (List.mem_cons_self r rs)
  have hrw : eosRows m = List.replicate (m.length - 1) [(0:ℚ)] ++ [[(1:ℚ)]] := by
    unfold eosRows
    rw [hw]
    rfl
  refine ⟨eosFlag_ok hne, ?_, ?_⟩
  · intro i hi
    rw [hrw]
    by_cases hlast : i = m.length - 1
    · rw [if_pos hlast]
      rw [List.getD_append_right _ _ _ _ (by rw [List.length_replicate]; omega)]
      rw [List.length_replicate, hlast]
      simp
    · rw [if_neg hlast]
      have hi' : i < m.length - 1 := by omega
      rw [List.getD_append _ _ _ _ (by rw [List.length_replicate]; omega)]
      exact getD_replicate_lt hi' _
  · rw [hrw, List.count_append, List.count_replicate]
    norm_num

theorem claim_C7_eos_flag_witness :
    eosFlag [[(5:ℚ)], [0], [7]] = .ok (eosRows [[(5:ℚ)], [0], [7]]) ∧
    (eosRows [[(5:ℚ)], [0], [7]]).getD 2 [] = [(1:ℚ)] ∧
    (eosRows [[(5:ℚ)], [0], [7]]).getD 0 [] = [(0:ℚ)] ∧
    (eosRows [[(5:ℚ)], [0], [7]]).count [(1:ℚ)] = 1 := by
  have h := claim_C7_eos_flag [[(5:ℚ)], [0], [7]] (by decide)
    (by
      intro r hr
      simp only [List.mem_cons, List.not_mem_nil, or_false] at hr
      rcases hr with h | h | h <;> subst h <;> rfl)
  refine ⟨h.1, ?_, ?_, h.2.2⟩
  · have := h.2.1 2 (by decide)
    simpa using this
  · have := h.2.1 0 (by decide)
    simpa using this

/-! ### Claims C8, C9, C1 -/

lemma if_gt_eq_max (a n : Nat) : (if n > a then n else a) = max a n := by
  rcases le_or_lt n a with h | h
  · rw [if_neg (not_lt.2 h), max_eq_left h]
  · rw [if_pos h, max_eq_right h.le]

lemma foldl_flatMap_max {α : Type} (l : List α) (f : α → List Nat) (init : Nat) :
    (l.flatMap f).foldl max init = l.foldl (fun acc x => (f x).foldl max acc) init := by
  induction l generalizing init with
  | nil => rfl
  | cons x xs ih => rw [List.flatMap_cons, List.foldl_append, List.foldl_cons, ih]

lemma longest_loop_eq (fs : FS) (data_dir : String) (speakers basenames : List String) :
    longest_loop fs data_dir speakers basenames =
      (speakers.flatMap (fun s => basenames.map (fun b =>
        (parse_file fs 1 (lf0FilePath (spkDir data_dir s) b)).length))).foldl max 0 := by
  unfold longest_loop
  rw [foldl_flatMap_max]
  congr 1
  funext acc s
  rw [List.foldl_map]
  congr 1
  funext a2 b
  exact if_gt_eq_max a2 _

/-- C8: find_longest_sequence returns the maximum frame count of the
1-wide log-F0 stream over every (speaker, basename) combination: the
result bounds every combination's count and, when both lists are
nonempty, is attained by some combination. -/
theorem claim_C8_longest (fs : FS) (data_dir : String) (speakers basenames : List String)
    (w : List String) (n : Nat)
    (h : find_longest_sequence fs data_dir speakers basenames = .ok (w, n)) :
    (∀ s ∈ speakers, ∀ b ∈ basenames,
      (parse_file fs 1 (lf0FilePath (spkDir data_dir s) b)).length ≤ n) ∧
    (speakers ≠ [] → basenames ≠ [] → ∃ s ∈ speakers, ∃ b ∈ basenames,
      n = (parse_file fs 1 (lf0FilePath (spkDir data_dir s) b)).length) := by
  have hn : n = longest_loop fs data_dir speakers basenames := by
    unfold find_longest_sequence at h
    cases hd : dir_slash_check data_dir
        "Please, make sure the data directory string ends with a '/'" with
    | error e =>
      rw [hd, error_bind] at h
      cases h
    | ok w' =>
      rw [hd, ok_bind] at h
      simp only [Except.ok.injEq, Prod.mk.injEq] at h
      exact h.2.symm
  subst hn
  rw [longest_loop_eq]
  constructor
  · intro s hs b hb
    refine mem_le_foldl_max ?_ 0
    refine List.mem_flatMap.2 ⟨s, hs, ?_⟩
    exact List.mem_map_of_mem _ hb
  · intro hsp hbn
    rcases foldl_max_eq_init_or_mem (speakers.flatMap fun s => basenames.map fun b =>
        (parse_file fs 1 (lf0FilePath (spkDir data_dir s) b)).length) 0 with h0 | hmem
    · obtain ⟨s, hs⟩ := List.exists_mem_of_ne_nil speakers hsp
      obtain ⟨b, hb⟩ := List.exists_mem_of_ne_nil basenames hbn
      refine ⟨s, hs, b, hb, ?_⟩
      have hle : (parse_file fs 1 (lf0FilePath (spkDir data_dir s) b)).length ≤
          (speakers.flatMap fun s => basenames.map fun b =>
            (parse_file fs 1 (lf0FilePath (spkDir data_dir s) b)).length).foldl max 0 := by
        refine mem_le_foldl_max ?_ 0
        refine List.mem_flatMap.2 ⟨s, hs, ?_⟩
        exact List.mem_map_of_mem _ hb
      rw [h0] at hle ⊢
      omega
    · obtain ⟨s, hs, hmm⟩ := List.mem_flatMap.1 hmem
      obtain ⟨b, hb, hbeq⟩ := List.mem_map.1 hmm
      exact ⟨s, hs, b, hb, hbeq.symm⟩

theorem claim_C8_longest_witness :
    (parse_file fsA 1 (lf0FilePath (spkDir "d/" "A") "u")).length ≤ 1 :=
  (claim_C8_longest fsA "d/" ["A"] ["u"] [] 1 (by rfl)).1 "A" (by simp) "u" (by simp)

/-- C9 as stated claims no exception ever propagates from the
trailing-slash check; on the empty data-root path the check itself
raises an uncaught IndexError (data_dir[len(data_dir)-1] on an empty
string), so the run aborts instead of continuing. -/
theorem claim_C9_counterexample :
    find_longest_sequence fsA "" ["A"] ["u"] = .error .indexError := by rfl

/-- C9 (amended): for every nonempty directory path that does not end in
'/', the violation is only reported and execution continues with the
malformed path, both in find_longest_sequence and in
seq2seq_build_file_table; on the empty path the check raises an uncaught
IndexError. -/
theorem claim_C9_nonfatal_path_check (fs : FS) (dir : String) (sp bn : List String)
    (sdir tdir : String) (si ti : Nat) (basename : String) (L : Nat)
    (hd : dir ≠ "") (hdb : dir.back ≠ '/')
    (hs : sdir ≠ "") (hsb : sdir.back ≠ '/') (ht : tdir ≠ "") (htb : tdir.back ≠ '/') :
    find_longest_sequence fs dir sp bn =
      .ok (["Please, make sure the data directory string ends with a '/'"],
           longest_loop fs dir sp bn) ∧
    seq2seq_build_file_table fs sdir si tdir ti basename L =
      (build_file_core fs sdir si tdir ti basename L).map
        (fun r => (["Please make sure the source data directory string ends with a '/'",
                    "Please make sure the target data directory string ends with a '/'"], r)) := by
  constructor
  · unfold find_longest_sequence
    rw [dir_slash_check_warn _ hd hdb, ok_bind]
  · unfold seq2seq_build_file_table
    rw [dir_slash_check_warn _ hs hsb, ok_bind, dir_slash_check_warn _ ht htb, ok_bind]
    cases build_file_core fs sdir si tdir ti basename L with
    | error e => rfl
    | ok r => rfl

theorem claim_C9_nonfatal_path_check_witness :
    find_longest_sequence fsA "dd" ["A"] ["u"] =
      .ok (["Please, make sure the data directory string ends with a '/'"],
           longest_loop fsA "dd" ["A"] ["u"]) ∧
    seq2seq_build_file_table fsA "sd" 0 "td" 0 "u" 1 =
      (build_file_core fsA "sd" 0 "td" 0 "u" 1).map
        (fun r => (["Please make sure the source data directory string ends with a '/'",
                    "Please make sure the target data directory string ends with a '/'"], r)) :=
  claim_C9_nonfatal_path_check fsA "dd" ["A"] ["u"] "sd" "td" 0 0 "u" 1
    (by decide) (by decide) (by decide) (by decide) (by decide) (by decide)

lemma load_write (d : Datatable) :
    seq2seq2_load_datatable (writeDatatableFile d) = some d := rfl

/-- C1: whenever seq2seq_save_datatable succeeds, producing a container
file and the assembled 7-tuple, seq2seq2_load_datatable on that container
returns exactly the same 7-tuple: all four arrays and the three
attributes, with no loss. -/
theorem claim_C1_roundtrip (fs : FS) (tfs : TextFS) (dir : String) (w : List String)
    (f : H5File) (d : Datatable)
    (h : seq2seq_save_datatable fs tfs dir = .ok (w, f, d)) :
    seq2seq2_load_datatable f = some d := by
  unfold seq2seq_save_datatable at h
  cases hd : dir_slash_check dir
      "Please, make sure the data directory string ends with a '/'" with
  | error e =>
    rw [hd, error_bind] at h
    cases h
  | ok w1 =>
    rw [hd, ok_bind] at h
    cases hc : seq2seq_construct_datatable fs tfs dir "speakers.list"
        "seq2seq_basenames.list" with
    | error e =>
      rw [hc, error_bind] at h
      cases h
    | ok p =>
      rw [hc, ok_bind] at h
      obtain ⟨w2, d'⟩ := p
      simp only [Except.ok.injEq, Prod.mk.injEq] at h
      obtain ⟨-, hf, hd'⟩ := h
      subst hf hd'
      exact load_write d'

theorem claim_C1_roundtrip_witness :
    seq2seq2_load_datatable (writeDatatableFile dtA) = some dtA :=
  claim_C1_roundtrip fsA tfsA "d/" [] (writeDatatableFile dtA) dtA (by decide)

/-! ### The statistics accumulation of the assembler (claims C3 and C10) -/

lemma spkDir_ne_empty (d s : String) : spkDir d s ≠ "" := by
  intro h
  apply congrArg String.length at h
  rw [spkDir, String.length_append] at h
  have h1 : ("/" : String).length = 1 := rfl
  have h2 : ("" : String).length = 0 := rfl
  rw [h1, h2] at h
  omega

lemma spkDir_back (d s : String) : (spkDir d s).back = '/' := by
  rw [String.back_eq]
  show ((spkDir d s).data).getLastD default = '/'
  rw [spkDir, String.data_append]
  have h1 : ("/" : String).data = ['/'] := rfl
  rw [h1]
  exact List.getLastD_concat _ _ _

lemma filterMap_zip_zero (A : Table) (k : Nat) (hk : A.length = k) :
    (A.zip (List.replicate k ([(0:ℚ)]))).filterMap
      (fun q => if q.2.headD 0 = 1 then some (q.1.take 42) else none) = [] := by
  induction A generalizing k with
  | nil => simp
  | cons a A' ih =>
    cases k with
    | zero => simp at hk
    | succ k' =>
      rw [List.replicate_succ, List.zip_cons_cons, List.filterMap_cons]
      have h0 : ¬(([(0:ℚ)] : Row).headD 0 = 1) := by norm_num
      rw [if_neg h0]
      exact ih k' (by simpa using hk)

lemma filterMap_zip_one (B : Table) (k : Nat) (hk : B.length = k) :
    (B.zip (List.replicate k ([(1:ℚ)]))).filterMap
      (fun q => if q.2.headD 0 = 1 then some (q.1.take 42) else none) =
      B.map (fun r => r.take 42) := by
  induction B generalizing k with
  | nil => simp
  | cons b B' ih =>
    cases k with
    | zero => simp at hk
    | succ k' =>
      rw [List.replicate_succ, List.zip_cons_cons, List.filterMap_cons]
      have h1 : (([(1:ℚ)] : Row).headD 0 = 1) := by norm_num
      rw [if_pos h1, List.map_cons]
      rw [ih k' (by simpa using hk)]

lemma hcat_append (a1 a2 b1 b2 : Table) (h : a1.length = b1.length) :
    hcat (a1 ++ a2) (b1 ++ b2) = hcat a1 b1 ++ hcat a2 b2 :=
  List.zipWith_append _ _ _ _ _ h

lemma padFront_eq {m : Table} {k : Nat} (L : Nat) (h : m.length = k) :
    padFront L m =
      List.replicate (L - k) (List.replicate (m.headD []).length (0:ℚ)) ++ m := by
  rw [padFront, h]

lemma length_trueSourceFrames {fs : FS} {dir bn : String} {L : Nat}
    (hs : SideWF fs dir bn L) :
    (trueSourceFrames fs dir bn).length = sideLen fs dir bn := by
  unfold trueSourceFrames
  rw [length_hcat, length_hcat, hs.f0i_len, hs.vfi_len]
  simp [sideLen]

lemma rowsW_trueSourceFrames {fs : FS} (dir bn : String) (hfs : ParsedWF fs) :
    RowsW (trueSourceFrames fs dir bn) 42 := by
  have h := rowsW_hcat (fun r hr => hfs 40 (mcpPath dir bn) r hr)
    (rowsW_hcat (fun r hr => hfs 1 (lf0iFilePath dir bn) r hr)
      (fun r hr => hfs 1 (vfiFilePath dir bn) r hr))
  exact h

lemma trueSourceFrames_ne_nil {fs : FS} {dir bn : String} {L : Nat}
    (hs : SideWF fs dir bn L) : trueSourceFrames fs dir bn ≠ [] := by
  refine List.length_pos.mp ?_
  rw [length_trueSourceFrames hs]
  exact hs.pos

lemma map_take42_hcat (m1 m2 m3 m4 m5 m6 p7d : Table) (n : Nat)
    (h1 : m1.length = n) (h2 : m2.length = n) (h3 : m3.length = n) (h4 : m4.length = n)
    (h5 : m5.length = n) (h6 : m6.length = n) (h7 : p7d.length = n)
    (w1 : RowsW m1 40) (w2 : RowsW m2 1) (w3 : RowsW m3 1) :
    (hcat (hcat (hcat (hcat (hcat (hcat m1 m2) m3) m4) m5) m6) p7d).map
        (fun r => r.take 42) =
      hcat m1 (hcat m2 m3) := by
  apply List.ext_getElem
  · simp [length_hcat, h1, h2, h3, h4, h5, h6, h7, min_self]
  · intro i hL hR
    have hin : i < n := by
      simpa [length_hcat, h1, h2, h3, h4, h5, h6, h7, min_self] using hL
    have hi1 : i < m1.length := by omega
    have hi2 : i < m2.length := by omega
    have hi3 : i < m3.length := by omega
    rw [List.getElem_map]
    simp only [hcat, List.getElem_zipWith]
    have hl1 : (m1[i]).length = 40 := w1 _ (List.getElem_mem hi1)
    have hl2 : (m2[i]).length = 1 := w2 _ (List.getElem_mem hi2)
    have hl3 : (m3[i]).length = 1 := w3 _ (List.getElem_mem hi3)
    rw [show ∀ (a b c d e f g : Row), ((((((a ++ b) ++ c) ++ d) ++ e) ++ f) ++ g) =
        ((a ++ b) ++ c) ++ (d ++ (e ++ (f ++ g))) from by intros; simp [List.append_assoc]]
    rw [List.take_left' (by rw [List.length_append, List.length_append, hl1, hl2, hl3])]
    rw [List.append_assoc]

lemma maskedRows_srcParams (fs : FS) (sdir tdir bn : String) (si ti L : Nat)
    (hfs : ParsedWF fs) (hs : SideWF fs sdir bn L) (ht : SideWF fs tdir bn L) :
    maskedRows (srcParamsOf fs sdir tdir bn si ti L) (srcMask L (sideLen fs sdir bn)) =
      trueSourceFrames fs sdir bn := by
  have hvf_ne : fs 1 (vfFilePath sdir bn) ≠ [] :=
    List.length_pos.mp (by rw [hs.vf_len]; exact hs.pos)
  have htvf_le : (to_categorical ti (fs 1 (vfFilePath tdir bn)).length).length ≤ L := by
    rw [length_to_categorical, ht.vf_len]
    exact ht.le
  have hn1 : (fs 40 (mcpPath sdir bn)).length = sideLen fs sdir bn := rfl
  have hn4 : (voicedFlags (fs 1 (vfFilePath sdir bn))).length = sideLen fs sdir bn := by
    rw [length_voicedFlags, hs.vf_len]
  have hn5 : (eosRows (fs 1 (vfFilePath sdir bn))).length = sideLen fs sdir bn := by
    rw [length_eosRows hvf_ne, hs.vf_len]
  have hn6 : (to_categorical si (fs 1 (vfFilePath sdir bn)).length).length
      = sideLen fs sdir bn := by
    rw [length_to_categorical, hs.vf_len]
  have hp7len : (padFront L (to_categorical ti (fs 1 (vfFilePath tdir bn)).length)).length
      = L := length_padFront htvf_le
  have hsplit : srcParamsOf fs sdir tdir bn si ti L =
      hcat (hcat (hcat (hcat (hcat (hcat
          (List.replicate (L - sideLen fs sdir bn)
            (List.replicate ((fs 40 (mcpPath sdir bn)).headD []).length (0:ℚ)))
          (List.replicate (L - sideLen fs sdir bn)
            (List.replicate ((fs 1 (lf0iFilePath sdir bn)).headD []).length (0:ℚ))))
          (List.replicate (L - sideLen fs sdir bn)
            (List.replicate ((fs 1 (vfiFilePath sdir bn)).headD []).length (0:ℚ))))
          (List.replicate (L - sideLen fs sdir bn)
            (List.replicate ((voicedFlags (fs 1 (vfFilePath sdir bn))).headD []).length (0:ℚ))))
          (List.replicate (L - sideLen fs sdir bn)
            (List.replicate ((eosRows (fs 1 (vfFilePath sdir bn))).headD []).length (0:ℚ))))
          (List.replicate (L - sideLen fs sdir bn)
            (List.replicate ((to_categorical si
              (fs 1 (vfFilePath sdir bn)).length).headD []).length (0:ℚ))))
        ((padFront L (to_categorical ti (fs 1 (vfFilePath tdir bn)).length)).take
          (L - sideLen fs sdir bn)) ++
      hcat (hcat (hcat (hcat (hcat (hcat
          (fs 40 (mcpPath sdir bn))
          (fs 1 (lf0iFilePath sdir bn)))
          (fs 1 (vfiFilePath sdir bn)))
          (voicedFlags (fs 1 (vfFilePath sdir bn))))
          (eosRows (fs 1 (vfFilePath sdir bn))))
          (to_categorical si (fs 1 (vfFilePath sdir bn)).length))
        ((padFront L (to_categorical ti (fs 1 (vfFilePath tdir bn)).length)).drop
          (L - sideLen fs sdir bn)) := by
    have e1 := padFront_eq (m := fs 40 (mcpPath sdir bn)) L hn1
    have e2 := padFront_eq (m := fs 1 (lf0iFilePath sdir bn)) L hs.f0i_len
    have e3 := padFront_eq (m := fs 1 (vfiFilePath sdir bn)) L hs.vfi_len
    have e4 := padFront_eq (m := voicedFlags (fs 1 (vfFilePath sdir bn))) L hn4
    have e5 := padFront_eq (m := eosRows (fs 1 (vfFilePath sdir bn))) L hn5
    have e6 := padFront_eq (m := to_categorical si (fs 1 (vfFilePath sdir bn)).length) L hn6
    have e7 := (List.take_append_drop (L - sideLen fs sdir bn)
      (padFront L (to_categorical ti (fs 1 (vfFilePath tdir bn)).length))).symm
    have hdef : srcParamsOf fs sdir tdir bn si ti L =
        hcat (hcat (hcat (hcat (hcat (hcat
          (padFront L (fs 40 (mcpPath sdir bn)))
          (padFront L (fs 1 (lf0iFilePath sdir bn))))
          (padFront L (fs 1 (vfiFilePath sdir bn))))
          (padFront L (voicedFlags (fs 1 (vfFilePath sdir bn)))))
          (padFront L (eosRows (fs 1 (vfFilePath sdir bn)))))
          (padFront L (to_categorical si (fs 1 (vfFilePath sdir bn)).length)))
          (padFront L (to_categorical ti (fs 1 (vfFilePath tdir bn)).length)) := rfl
    rw [hdef, e1, e2, e3, e4, e5, e6]
    conv_lhs => rw [e7]
    rw [hcat_append _ _ _ _ (by simp), hcat_append _ _ _ _ (by simp [length_hcat]),
      hcat_append _ _ _ _ (by simp [length_hcat]), hcat_append _ _ _ _ (by simp [length_hcat]),
      hcat_append _ _ _ _ (by simp [length_hcat]),
      hcat_append _ _ _ _ (by
        simp only [length_hcat, List.length_replicate, List.length_take, min_self, hp7len]
        omega)]
  rw [hsplit]
  unfold maskedRows srcMask
  have hAlen : (hcat (hcat (hcat (hcat (hcat (hcat
      (List.replicate (L - sideLen fs sdir bn)
        (List.replicate ((fs 40 (mcpPath sdir bn)).headD []).length (0:ℚ)))
      (List.replicate (L - sideLen fs sdir bn)
        (List.replicate ((fs 1 (lf0iFilePath sdir bn)).headD []).length (0:ℚ))))
      (List.replicate (L - sideLen fs sdir bn)
        (List.replicate ((fs 1 (vfiFilePath sdir bn)).headD []).length (0:ℚ))))
      (List.replicate (L - sideLen fs sdir bn)
        (List.replicate ((voicedFlags (fs 1 (vfFilePath sdir bn))).headD []).length (0:ℚ))))
      (List.replicate (L - sideLen fs sdir bn)
        (List.replicate ((eosRows (fs 1 (vfFilePath sdir bn))).headD []).length (0:ℚ))))
      (List.replicate (L - sideLen fs sdir bn)
        (List.replicate ((to_categorical si
          (fs 1 (vfFilePath sdir bn)).length).headD []).length (0:ℚ))))
      ((padFront L (to_categorical ti (fs 1 (vfFilePath tdir bn)).length)).take
        (L - sideLen fs sdir bn))).length = L - sideLen fs sdir bn := by
    simp only [length_hcat, List.length_replicate, List.length_take, min_self, hp7len]
    omega
  have hBlen : (hcat (hcat (hcat (hcat (hcat (hcat
      (fs 40 (mcpPath sdir bn))
      (fs 1 (lf0iFilePath sdir bn)))
      (fs 1 (vfiFilePath sdir bn)))
      (voicedFlags (fs 1 (vfFilePath sdir bn))))
      (eosRows (fs 1 (vfFilePath sdir bn))))
      (to_categorical si (fs 1 (vfFilePath sdir bn)).length))
      ((padFront L (to_categorical ti (fs 1 (vfFilePath tdir bn)).length)).drop
        (L - sideLen fs sdir bn))).length = sideLen fs sdir bn := by
    simp only [length_hcat, List.length_drop, hn1, hs.f0i_len, hs.vfi_len, hn4, hn5, hn6,
      hp7len, min_self]
    have := hs.le
    omega
  rw [List.zip_append (by rw [hAlen, List.length_replicate])]
  rw [List.filterMap_append]
  rw [filterMap_zip_zero _ _ hAlen, filterMap_zip_one _ _ hBlen, List.nil_append]
  exact map_take42_hcat _ _ _ _ _ _ _ (sideLen fs sdir bn) hn1 hs.f0i_len hs.vfi_len hn4 hn5
    hn6 (by rw [List.length_drop, hp7len]; have := hs.le; omega)
    (fun r hr => hfs 40 _ r hr) (fun r hr => hfs 1 _ r hr) (fun r hr => hfs 1 _ r hr)

lemma getD_set_self' {α : Type} (l : List α) (i : Nat) (x d : α) (h : i < l.length) :
    (l.set i x).getD i d = x := by
  rw [List.getD_eq_getElem _ _ (by rw [List.length_set]; exact h)]
  exact List.getElem_set_self _

lemma getD_set_ne' {α : Type} (l : List α) (k i : Nat) (x d : α) (h : k ≠ i) :
    (l.set k x).getD i d = l.getD i d := by
  by_cases hi : i < l.length
  · rw [List.getD_eq_getElem _ _ (by rw [List.length_set]; exact hi),
      List.getD_eq_getElem _ _ hi]
    exact List.getElem_set_ne h _
  · rw [List.getD_eq_default _ _ (show (l.set k x).length ≤ i by rw [List.length_set]; omega),
      List.getD_eq_default _ _ (show l.length ≤ i by omega)]

lemma foldl_zipWith_len (f : ℚ → ℚ → ℚ) (rs : Table) (r0 : Row) (h0 : r0.length = 42)
    (hw : ∀ r ∈ rs, r.length = 42) :
    (rs.foldl (fun a b => List.zipWith f a b) r0).length = 42 := by
  induction rs generalizing r0 with
  | nil => exact h0
  | cons r rs' ih =>
    rw [List.foldl_cons]
    exact ih _ (by rw [List.length_zipWith, h0, hw r (List.mem_cons_self r rs')]; simp)
      (fun r' hr' => hw r' (List.mem_cons_of_mem r hr'))

lemma foldl_zipWith_getD (f : ℚ → ℚ → ℚ) (rs : Table) (r0 : Row) (h0 : r0.length = 42)
    (hw : ∀ r ∈ rs, r.length = 42) (j : Nat) (hj : j < 42) :
    (rs.foldl (fun a b => List.zipWith f a b) r0).getD j 0 =
      (rs.map (fun r => r.getD j 0)).foldl f (r0.getD j 0) := by
  induction rs generalizing r0 with
  | nil => rfl
  | cons r rs' ih =>
    rw [List.foldl_cons, List.map_cons, List.foldl_cons]
    rw [ih (List.zipWith f r0 r)
      (by rw [List.length_zipWith, h0, hw r (List.mem_cons_self r rs')]; simp)
      (fun r' hr' => hw r' (List.mem_cons_of_mem r hr'))]
    congr 1
    exact getD_zipWith_of_lt (by omega) (by rw [hw r (List.mem_cons_self r rs')]; exact hj)

lemma statStep_spec (acc : S2SAcc) (si : Nat) (sp sm frames : Table)
    (hmr : maskedRows sp sm = frames) (hne : frames ≠ []) (hw : RowsW frames 42)
    (hacc : AccStatWF acc) (hsi : si < 10) :
    AccStatWF (statStep acc si sp sm) ∧
    (∀ j, j < 42 → entryOf (statStep acc si sp sm).spk_max si j =
      (colValues frames j).foldl max (entryOf acc.spk_max si j)) ∧
    (∀ j, j < 42 → entryOf (statStep acc si sp sm).spk_min si j =
      (colValues frames j).foldl min (entryOf acc.spk_min si j)) := by
  obtain ⟨hml, hnl, hmw, hnw⟩ := hacc
  cases hfr : frames with
  | nil => exact absurd hfr hne
  | cons r0 rs =>
  subst hfr
  have h0 : r0.length = 42 := hw r0 (List.mem_cons_self r0 rs)
  have hws : ∀ r ∈ rs, r.length = 42 := fun r hr => hw r (List.mem_cons_of_mem r0 hr)
  have hmaxrow : acc.spk_max.getD si [] ∈ acc.spk_max := by
    rw [List.getD_eq_getElem _ _ (by rw [hml]; exact hsi)]
    exact List.getElem_mem _
  have hminrow : acc.spk_min.getD si [] ∈ acc.spk_min := by
    rw [List.getD_eq_getElem _ _ (by rw [hnl]; exact hsi)]
    exact List.getElem_mem _
  have hrow_max : (acc.spk_max.getD si []).length = 42 := hmw _ hmaxrow
  have hrow_min : (acc.spk_min.getD si []).length = 42 := hnw _ hminrow
  have hmx_len : (rs.foldl (fun a b => List.zipWith max a b) r0).length = 42 :=
    foldl_zipWith_len max rs r0 h0 hws
  have hmn_len : (rs.foldl (fun a b => List.zipWith min a b) r0).length = 42 :=
    foldl_zipWith_len min rs r0 h0 hws
  have hstep : statStep acc si sp sm =
      { acc with
        spk_max := acc.spk_max.set si (List.zipWith max (acc.spk_max.getD si [])
          (rs.foldl (fun a b => List.zipWith max a b) r0))
        spk_min := acc.spk_min.set si (List.zipWith min (acc.spk_min.getD si [])
          (rs.foldl (fun a b => List.zipWith min a b) r0)) } := by
    unfold statStep
    rw [hmr]
    rfl
  rw [hstep]
  refine ⟨⟨by rw [List.length_set]; exact hml, by rw [List.length_set]; exact hnl, ?_, ?_⟩,
    ?_, ?_⟩
  · intro r hr
    rcases List.mem_or_eq_of_mem_set hr with h | h
    · exact hmw r h
    · rw [h, List.length_zipWith, hrow_max, hmx_len]
      simp
  · intro r hr
    rcases List.mem_or_eq_of_mem_set hr with h | h
    · exact hnw r h
    · rw [h, List.length_zipWith, hrow_min, hmn_len]
      simp
  · intro j hj
    unfold entryOf
    rw [getD_set_self' _ _ _ _ (by rw [hml]; exact hsi)]
    rw [getD_zipWith_of_lt (by rw [hrow_max]; exact hj) (by rw [hmx_len]; exact hj)]
    rw [foldl_zipWith_getD max rs r0 h0 hws j hj]
    rw [foldl_max_init_comm]
    rfl
  · intro j hj
    unfold entryOf
    rw [getD_set_self' _ _ _ _ (by rw [hnl]; exact hsi)]
    rw [getD_zipWith_of_lt (by rw [hrow_min]; exact hj) (by rw [hmn_len]; exact hj)]
    rw [foldl_zipWith_getD min rs r0 h0 hws j hj]
    rw [foldl_min_init_comm]
    rfl

lemma statStep_other (acc : S2SAcc) (si : Nat) (sp sm : Table) (i : Nat) (h : si ≠ i) :
    (statStep acc si sp sm).spk_max.getD i [] = acc.spk_max.getD i [] ∧
    (statStep acc si sp sm).spk_min.getD i [] = acc.spk_min.getD i [] := by
  unfold statStep
  cases colFold max (maskedRows sp sm) with
  | none => exact ⟨rfl, rfl⟩
  | some mx =>
    cases colFold min (maskedRows sp sm) with
    | none => exact ⟨rfl, rfl⟩
    | some mn => exact ⟨getD_set_ne' _ _ _ _ _ h, getD_set_ne' _ _ _ _ _ h⟩

lemma statStep_wf_of_ge (acc : S2SAcc) (si : Nat) (sp sm : Table)
    (hacc : AccStatWF acc) (hsi : 10 ≤ si) : AccStatWF (statStep acc si sp sm) := by
  obtain ⟨hml, hnl, hmw, hnw⟩ := hacc
  unfold statStep
  cases colFold max (maskedRows sp sm) with
  | none => exact ⟨hml, hnl, hmw, hnw⟩
  | some mx =>
    cases colFold min (maskedRows sp sm) with
    | none => exact ⟨hml, hnl, hmw, hnw⟩
    | some mn =>
      show AccStatWF { acc with
        spk_max := acc.spk_max.set si (List.zipWith max (acc.spk_max.getD si []) mx)
        spk_min := acc.spk_min.set si (List.zipWith min (acc.spk_min.getD si []) mn) }
      rw [List.set_eq_of_length_le (by rw [hml]; exact hsi),
        List.set_eq_of_length_le (by rw [hnl]; exact hsi)]
      exact ⟨hml, hnl, hmw, hnw⟩

lemma constructStep_ok (fs : FS) (data_dir : String) (L : Nat) (acc : S2SAcc)
    (p : Nat × String × Nat × String × String)
    (hfs : ParsedWF fs) (hp : PairWF fs data_dir L p) :
    constructStep fs data_dir L acc p = .ok (pairUpdate fs data_dir L acc p) := by
  obtain ⟨si, ss, ti, ts, bn⟩ := p
  obtain ⟨hs, ht⟩ := hp
  simp only [constructStep, pairUpdate,
    seq2seq_build_file_table_ok fs (spkDir data_dir ss) (spkDir data_dir ts) bn si ti L hfs
      hs ht (spkDir_ne_empty _ _) (spkDir_back _ _) (spkDir_ne_empty _ _) (spkDir_back _ _),
    ok_bind]

lemma foldlM_constructStep_ok (fs : FS) (data_dir : String) (L : Nat)
    (ps : List (Nat × String × Nat × String × String)) (hfs : ParsedWF fs)
    (hps : ∀ p ∈ ps, PairWF fs data_dir L p) (acc : S2SAcc) :
    ps.foldlM (constructStep fs data_dir L) acc =
      .ok (ps.foldl (pairUpdate fs data_dir L) acc) := by
  induction ps generalizing acc with
  | nil => rfl
  | cons p ps' ih =>
    rw [List.foldlM_cons, constructStep_ok fs data_dir L acc p hfs
      (hps p (List.mem_cons_self p ps')), ok_bind,
      ih (fun q hq => hps q (List.mem_cons_of_mem p hq)), List.foldl_cons]

lemma pairUpdate_spec (fs : FS) (d : String) (L : Nat) (acc : S2SAcc)
    (p : Nat × String × Nat × String × String)
    (hfs : ParsedWF fs) (hp : PairWF fs d L p) (hacc : AccStatWF acc) :
    AccStatWF (pairUpdate fs d L acc p) ∧
    (p.1 < 10 → ∀ j, j < 42 →
      entryOf (pairUpdate fs d L acc p).spk_max p.1 j =
        (colValues (trueSourceFrames fs (spkDir d p.2.1) p.2.2.2.2) j).foldl max
          (entryOf acc.spk_max p.1 j) ∧
      entryOf (pairUpdate fs d L acc p).spk_min p.1 j =
        (colValues (trueSourceFrames fs (spkDir d p.2.1) p.2.2.2.2) j).foldl min
          (entryOf acc.spk_min p.1 j)) ∧
    (∀ i, p.1 ≠ i →
      (pairUpdate fs d L acc p).spk_max.getD i [] = acc.spk_max.getD i [] ∧
      (pairUpdate fs d L acc p).spk_min.getD i [] = acc.spk_min.getD i []) := by
  obtain ⟨si, ss, ti, ts, bn⟩ := p
  obtain ⟨hs, ht⟩ := hp
  have hmr := maskedRows_srcParams fs (spkDir d ss) (spkDir d ts) bn si ti L hfs hs ht
  have hne := trueSourceFrames_ne_nil hs
  have hw := rowsW_trueSourceFrames (spkDir d ss) bn hfs
  simp only [pairUpdate]
  have hwfe : ∀ b : S2SAcc, AccStatWF b →
      AccStatWF { b with
        src_dt := b.src_dt ++ [srcParamsOf fs (spkDir d ss) (spkDir d ts) bn si ti L],
        trg_dt := b.trg_dt ++ [trgParamsOf fs (spkDir d ts) bn L],
        src_masks := b.src_masks ++ [srcMask L (sideLen fs (spkDir d ss) bn)],
        trg_masks := b.trg_masks ++ [trgMask L (sideLen fs (spkDir d ts) bn)] } :=
    fun b hb => hb
  refine ⟨?_, ?_, ?_⟩
  · by_cases hsi : si < 10
    · exact hwfe _ ((statStep_spec acc si _ _ _ hmr hne hw hacc hsi).1)
    · exact hwfe _ (statStep_wf_of_ge acc si _ _ hacc (by omega))
  · intro hsi j hj
    have h := statStep_spec acc si _ _ _ hmr hne hw hacc hsi
    exact ⟨h.2.1 j hj, h.2.2 j hj⟩
  · intro i hne'
    exact statStep_other acc si _ _ i hne'

set_option maxHeartbeats 2000000 in
lemma foldl_pairUpdate_stats (fs : FS) (d : String) (L : Nat) (hfs : ParsedWF fs)
    (ps : List (Nat × String × Nat × String × String))
    (hps : ∀ p ∈ ps, PairWF fs d L p) (acc : S2SAcc) (hacc : AccStatWF acc) :
    AccStatWF (ps.foldl (pairUpdate fs d L) acc) ∧
    ∀ si, si < 10 → ∀ j, j < 42 →
      entryOf (ps.foldl (pairUpdate fs d L) acc).spk_max si j =
        (ps.flatMap (fun p => if p.1 = si then
          colValues (trueSourceFrames fs (spkDir d p.2.1) p.2.2.2.2) j else [])).foldl max
          (entryOf acc.spk_max si j) ∧
      entryOf (ps.foldl (pairUpdate fs d L) acc).spk_min si j =
        (ps.flatMap (fun p => if p.1 = si then
          colValues (trueSourceFrames fs (spkDir d p.2.1) p.2.2.2.2) j else [])).foldl min
          (entryOf acc.spk_min si j) := by
  induction ps generalizing acc with
  | nil => exact ⟨hacc, fun si hsi j hj => ⟨rfl, rfl⟩⟩
  | cons p ps' ih =>
    have hp := hps p (List.mem_cons_self p ps')
    have hu := pairUpdate_spec fs d L acc p hfs hp hacc
    have ihh := ih (fun q hq => hps q (List.mem_cons_of_mem p hq))
      (pairUpdate fs d L acc p) hu.1
    refine ⟨by rw [List.foldl_cons]; exact ihh.1, ?_⟩
    intro si hsi j hj
    obtain ⟨hm, hn⟩ := ihh.2 si hsi j hj
    rw [List.foldl_cons, List.flatMap_cons]
    by_cases hpsi : p.1 = si
    · rw [if_pos hpsi, List.foldl_append, List.foldl_append]
      constructor
      · rw [hm]
        congr 1
        have h1 := (hu.2.1 (by omega) j hj).1
        rw [hpsi] at h1
        exact h1
      · rw [hn]
        congr 1
        have h1 := (hu.2.1 (by omega) j hj).2
        rw [hpsi] at h1
        exact h1
    · rw [if_neg hpsi, List.nil_append]
      have ho := hu.2.2 si hpsi
      constructor
      · rw [hm]
        congr 1
        unfold entryOf
        rw [ho.1]
      · rw [hn]
        congr 1
        unfold entryOf
        rw [ho.2]

lemma constructStep_row_preserve (fs : FS) (d : String) (L : Nat) (acc : S2SAcc)
    (p : Nat × String × Nat × String × String) (acc' : S2SAcc)
    (h : constructStep fs d L acc p = .ok acc') (i : Nat) (hne : p.1 ≠ i) :
    acc'.spk_max.getD i [] = acc.spk_max.getD i [] ∧
    acc'.spk_min.getD i [] = acc.spk_min.getD i [] := by
  obtain ⟨si, ss, ti, ts, bn⟩ := p
  unfold constructStep at h
  dsimp only at h
  cases hb : seq2seq_build_file_table fs (spkDir d ss) si (spkDir d ts) ti bn L with
  | error e =>
    rw [hb, error_bind] at h
    cases h
  | ok r =>
    rw [hb, ok_bind] at h
    obtain ⟨w, sp, sm, tp, tm⟩ := r
    have h' := Except.ok.inj h
    subst h'
    exact ⟨(statStep_other acc si sp sm i hne).1, (statStep_other acc si sp sm i hne).2⟩

lemma foldlM_rows_preserve (fs : FS) (d : String) (L : Nat)
    (ps : List (Nat × String × Nat × String × String)) (acc acc' : S2SAcc)
    (h : ps.foldlM (constructStep fs d L) acc = .ok acc') (i : Nat)
    (hi : ∀ p ∈ ps, p.1 ≠ i) :
    acc'.spk_max.getD i [] = acc.spk_max.getD i [] ∧
    acc'.spk_min.getD i [] = acc.spk_min.getD i [] := by
  induction ps generalizing acc with
  | nil =>
    have h' := Except.ok.inj h
    subst h'
    exact ⟨rfl, rfl⟩
  | cons p ps' ih =>
    rw [List.foldlM_cons] at h
    cases hs : constructStep fs d L acc p with
    | error e =>
      rw [hs, error_bind] at h
      cases h
    | ok a1 =>
      rw [hs, ok_bind] at h
      have h1 := constructStep_row_preserve fs d L acc p a1 hs i (hi p (List.mem_cons_self p ps'))
      have h2 := ih a1 h (fun q hq => hi q (List.mem_cons_of_mem p hq))
      exact ⟨h2.1.trans h1.1, h2.2.trans h1.2⟩

lemma construct_ok_inversion (fs : FS) (tfs : TextFS) (data_dir sf bf : String)
    (w : List String) (d : Datatable)
    (h : seq2seq_construct_datatable fs tfs data_dir sf bf = .ok (w, d)) :
    ∃ acc, (pairsOf (linesOf tfs data_dir sf) (linesOf tfs data_dir bf)).foldlM
        (constructStep fs data_dir (longest_loop fs data_dir (linesOf tfs data_dir sf)
          (linesOf tfs data_dir bf))) initAcc = .ok acc ∧
      d.speakers_max = acc.spk_max ∧ d.speakers_min = acc.spk_min := by
  unfold seq2seq_construct_datatable find_longest_sequence at h
  cases h1 : dir_slash_check data_dir
      "Please, make sure the data directory string ends with a '/'" with
  | error e =>
    simp only [h1, error_bind] at h
    exact Except.noConfusion h
  | ok w1 =>
    simp only [h1, ok_bind] at h
    cases h3 : (pairsOf (linesOf tfs data_dir sf) (linesOf tfs data_dir bf)).foldlM
        (constructStep fs data_dir (longest_loop fs data_dir (linesOf tfs data_dir sf)
          (linesOf tfs data_dir bf))) initAcc with
    | error e =>
      simp only [h3, error_bind] at h
      exact Except.noConfusion h
    | ok acc =>
      simp only [h3, ok_bind, Except.ok.injEq, Prod.mk.injEq] at h
      refine ⟨acc, rfl, ?_⟩
      obtain ⟨-, hd⟩ := h
      rw [← hd]
      exact ⟨rfl, rfl⟩

lemma flatMap_nil_of {α β : Type} (l : List α) (f : α → List β)
    (h : ∀ x ∈ l, f x = []) : l.flatMap f = [] := by
  induction l with
  | nil => rfl
  | cons x xs ih =>
    rw [List.flatMap_cons, h x (List.mem_cons_self x xs),
      ih (fun y hy => h y (List.mem_cons_of_mem x hy)), List.nil_append]

lemma flatMap_const_congr {α α' β : Type} (l1 : List α) (l2 : List α') (C : List β)
    (h : l1.length = l2.length) :
    l1.flatMap (fun _ => C) = l2.flatMap (fun _ => C) := by
  induction l1 generalizing l2 with
  | nil =>
    cases l2 with
    | nil => rfl
    | cons y ys => simp at h
  | cons x xs ih =>
    cases l2 with
    | nil => simp at h
    | cons y ys =>
      rw [List.flatMap_cons, List.flatMap_cons, ih ys (by simpa using h)]

lemma mem_enumFrom_fst {l : List String} {k : Nat} {se : Nat × String}
    (h : se ∈ l.enumFrom k) : k ≤ se.1 ∧ se.1 < k + l.length := by
  obtain ⟨i, x⟩ := se
  have := List.mem_enumFrom h
  exact ⟨this.1, this.2.1⟩

lemma enumFrom_flatMap_single {β : Type} (l : List String) (k si : Nat)
    (F : Nat × String → List β)
    (hzero : ∀ se ∈ l.enumFrom k, se.1 ≠ si → F se = [])
    (hk : k ≤ si) (hlt : si < k + l.length) :
    (l.enumFrom k).flatMap F = F (si, l.getD (si - k) "") := by
  induction l generalizing k with
  | nil =>
    simp at hlt
    omega
  | cons x xs ih =>
    rw [List.enumFrom_cons, List.flatMap_cons]
    by_cases hksi : k = si
    · subst hksi
      have hrest : (xs.enumFrom (k + 1)).flatMap F = [] := by
        refine flatMap_nil_of _ _ (fun se hse => ?_)
        refine hzero se (by rw [List.enumFrom_cons]; exact List.mem_cons_of_mem _ hse) ?_
        have hb := (mem_enumFrom_fst hse).1
        omega
      rw [hrest, List.append_nil]
      have harg : (x :: xs).getD (k - k) "" = x := by
        rw [Nat.sub_self]
        exact List.getD_cons_zero
      rw [harg]
    · have hx0 : F (k, x) = [] := by
        refine hzero (k, x) (by rw [List.enumFrom_cons]; exact List.mem_cons_self _ _) ?_
        simpa using hksi
      rw [hx0, List.nil_append]
      rw [ih (k + 1)
        (fun se hse hne => hzero se
          (by rw [List.enumFrom_cons]; exact List.mem_cons_of_mem _ hse) hne)
        (by omega) (by simp at hlt ⊢; omega)]
      have harg : xs.getD (si - (k + 1)) "" = (x :: xs).getD (si - k) "" := by
        rw [show si - k = (si - (k + 1)) + 1 from by omega, List.getD_cons_succ]
      rw [harg]

lemma mem_pairsOf_fst_lt {speakers basenames : List String}
    {p : Nat × String × Nat × String × String} (hp : p ∈ pairsOf speakers basenames) :
    p.1 < speakers.length := by
  unfold pairsOf at hp
  obtain ⟨se, hse, hp2⟩ := List.mem_flatMap.1 hp
  obtain ⟨te, hte, hp3⟩ := List.mem_flatMap.1 hp2
  obtain ⟨b, hb, hp4⟩ := List.mem_map.1 hp3
  rw [← hp4]
  simpa using (mem_enumFrom_fst hse).2

lemma pairsOf_flatMap_vals (fs : FS) (d : String) (speakers basenames : List String)
    (si : Nat) (hsi : si < speakers.length) (j : Nat) :
    (pairsOf speakers basenames).flatMap (fun p => if p.1 = si then
        colValues (trueSourceFrames fs (spkDir d p.2.1) p.2.2.2.2) j else []) =
      colValues (speakerSourceFrames fs d speakers basenames (speakers.getD si "")) j := by
  unfold pairsOf speakerSourceFrames
  rw [List.flatMap_assoc]
  have hG : ∀ se : Nat × String,
      (speakers.enum.flatMap fun te => basenames.map
          fun bn => (se.1, se.2, te.1, te.2, bn)).flatMap
        (fun p => if p.1 = si then
          colValues (trueSourceFrames fs (spkDir d p.2.1) p.2.2.2.2) j else []) =
      speakers.enum.flatMap (fun _te => basenames.flatMap
        (fun bn => if se.1 = si then
          colValues (trueSourceFrames fs (spkDir d se.2) bn) j else [])) := by
    intro se
    rw [List.flatMap_assoc]
    congr 1
    funext te
    rw [List.flatMap_map]
  have hstep : (speakers.enum.flatMap fun se =>
      (speakers.enum.flatMap fun te => basenames.map
          fun bn => (se.1, se.2, te.1, te.2, bn)).flatMap
        (fun p => if p.1 = si then
          colValues (trueSourceFrames fs (spkDir d p.2.1) p.2.2.2.2) j else [])) =
      speakers.enum.flatMap (fun se => speakers.enum.flatMap
        (fun _te => basenames.flatMap
          (fun bn => if se.1 = si then
            colValues (trueSourceFrames fs (spkDir d se.2) bn) j else []))) := by
    congr 1
    funext se
    exact hG se
  rw [hstep]
  have hsingle : speakers.enum.flatMap
      (fun se => speakers.enum.flatMap (fun _te => basenames.flatMap
        (fun bn => if se.1 = si then
          colValues (trueSourceFrames fs (spkDir d se.2) bn) j else []))) =
      (fun se : Nat × String => speakers.enum.flatMap (fun _te => basenames.flatMap
        (fun bn => if se.1 = si then
          colValues (trueSourceFrames fs (spkDir d se.2) bn) j else [])))
        (si, speakers.getD si "") :=
    enumFrom_flatMap_single speakers 0 si
      (fun se => speakers.enum.flatMap (fun _te => basenames.flatMap
        (fun bn => if se.1 = si then
          colValues (trueSourceFrames fs (spkDir d se.2) bn) j else [])))
      (fun se _hse hne => by
        refine flatMap_nil_of _ _ (fun te _hte => ?_)
        refine flatMap_nil_of _ _ (fun bn _hbn => ?_)
        rw [if_neg hne])
      (Nat.zero_le si) (by simpa using hsi)
  rw [hsingle]
  dsimp only
  have hpos : ∀ bn : String, (if si = si then
      colValues (trueSourceFrames fs (spkDir d (speakers.getD si "")) bn) j else []) =
      colValues (trueSourceFrames fs (spkDir d (speakers.getD si "")) bn) j :=
    fun bn => if_pos rfl
  have hinner : (fun _te : Nat × String => basenames.flatMap
      (fun bn => if si = si then
        colValues (trueSourceFrames fs (spkDir d (speakers.getD si "")) bn) j else [])) =
      (fun _te : Nat × String => basenames.flatMap
        (fun bn => colValues (trueSourceFrames fs (spkDir d (speakers.getD si "")) bn) j)) := by
    funext _te
    congr 1
    funext bn
    exact hpos bn
  rw [hinner]
  rw [flatMap_const_congr speakers.enum speakers _ List.enum_length]
  unfold colValues
  rw [List.map_flatMap]
  congr 1
  funext _t
  rw [List.map_flatMap]

lemma initAcc_wf : AccStatWF initAcc := by
  refine ⟨by simp [initAcc], by simp [initAcc], ?_, ?_⟩ <;>
    · intro r hr
      rw [List.eq_of_mem_replicate hr]
      simp

lemma entry_initAcc_max (si j : Nat) (hsi : si < 10) (hj : j < 42) :
    entryOf initAcc.spk_max si j = 0 := by
  unfold initAcc entryOf
  rw [getD_replicate_lt hsi, getD_replicate_lt hj]

lemma entry_initAcc_min (si j : Nat) (hsi : si < 10) (hj : j < 42) :
    entryOf initAcc.spk_min si j = sentinel := by
  unfold initAcc entryOf
  rw [getD_replicate_lt hsi, getD_replicate_lt hj]

lemma entryOf_col_default (m : Table) (hlen : m.length = 10) (hw : RowsW m 42)
    (i j : Nat) (hj : 42 ≤ j) : entryOf m i j = 0 := by
  unfold entryOf
  by_cases hi : i < 10
  · have hrow : m.getD i [] ∈ m := by
      rw [List.getD_eq_getElem _ _ (by omega)]
      exact List.getElem_mem _
    exact List.getD_eq_default _ _ (by rw [hw _ hrow]; omega)
  · have hrow : m.getD i [] = [] := List.getD_eq_default _ _ (by omega)
    rw [hrow]
    simp

lemma entryOf_row_default (m : Table) (hlen : m.length = 10) (i j : Nat) (hi : 10 ≤ i) :
    entryOf m i j = 0 := by
  unfold entryOf
  have hrow : m.getD i [] = [] := List.getD_eq_default _ _ (by omega)
  rw [hrow]
  simp

/-- C3 as stated requires the final per-speaker statistics to equal the
true elementwise max/min over the non-padded source frames; with the max
accumulator seeded at 0, an all-negative corpus ends with 0 in speakers_max
although the true maximum of that column is -1. -/
theorem claim_C3_counterexample :
    seq2seq_construct_datatable fsA tfsA "d/" "speakers.list" "seq2seq_basenames.list" =
      .ok ([], dtA) ∧
    entryOf dtA.speakers_max 0 0 = 0 ∧
    colValues (speakerSourceFrames fsA "d/" ["A"] ["u"] "A") 0 = [(-1 : ℚ)] ∧
    (0 : ℚ) ≠ -1 :=
  ⟨by decide, by decide, by decide, by decide⟩

/-- C3 (amended): in seq2seq_construct_datatable the per-speaker max
accumulator never decreases and the min accumulator never increases
elementwise as pairs are processed, and for every source-speaker index the
final speakers_max (resp. speakers_min) entry is the maximum (resp.
minimum) of the seed 0 (resp. the 1e+50 sentinel) together with all values
of that column over the non-padded source frames of all pairs in which
that speaker is the source. -/
theorem claim_C3_speaker_stats (fs : FS) (tfs : TextFS) (data_dir sf bf : String)
    (hfs : ParsedWF fs) :
    (∀ (L : Nat) (acc acc' : S2SAcc) (p : Nat × String × Nat × String × String),
      PairWF fs data_dir L p → AccStatWF acc →
      constructStep fs data_dir L acc p = .ok acc' →
      ∀ i j, entryOf acc.spk_max i j ≤ entryOf acc'.spk_max i j ∧
        entryOf acc'.spk_min i j ≤ entryOf acc.spk_min i j) ∧
    (∀ (w : List String) (d : Datatable),
      seq2seq_construct_datatable fs tfs data_dir sf bf = .ok (w, d) →
      (∀ p ∈ pairsOf (linesOf tfs data_dir sf) (linesOf tfs data_dir bf),
        PairWF fs data_dir
          (longest_loop fs data_dir (linesOf tfs data_dir sf) (linesOf tfs data_dir bf)) p) →
      ∀ si, si < (linesOf tfs data_dir sf).length → si < 10 → ∀ j, j < 42 →
        (entryOf d.speakers_max si j ∈ (0 : ℚ) :: colValues
            (speakerSourceFrames fs data_dir (linesOf tfs data_dir sf)
              (linesOf tfs data_dir bf) ((linesOf tfs data_dir sf).getD si "")) j ∧
          ∀ v ∈ (0 : ℚ) :: colValues
            (speakerSourceFrames fs data_dir (linesOf tfs data_dir sf)
              (linesOf tfs data_dir bf) ((linesOf tfs data_dir sf).getD si "")) j,
            v ≤ entryOf d.speakers_max si j) ∧
        (entryOf d.speakers_min si j ∈ sentinel :: colValues
            (speakerSourceFrames fs data_dir (linesOf tfs data_dir sf)
              (linesOf tfs data_dir bf) ((linesOf tfs data_dir sf).getD si "")) j ∧
          ∀ v ∈ sentinel :: colValues
            (speakerSourceFrames fs data_dir (linesOf tfs data_dir sf)
              (linesOf tfs data_dir bf) ((linesOf tfs data_dir sf).getD si "")) j,
            entryOf d.speakers_min si j ≤ v)) := by
  constructor
  · intro L acc acc' p hp hacc hstep i j
    rw [constructStep_ok fs data_dir L acc p hfs hp] at hstep
    have hacc' := Except.ok.inj hstep
    subst hacc'
    have hu := pairUpdate_spec fs data_dir L acc p hfs hp hacc
    by_cases hip : p.1 = i
    · by_cases hi10 : i < 10
      · by_cases hj42 : j < 42
        · have h1 := (hu.2.1 (by omega) j hj42).1
          have h2 := (hu.2.1 (by omega) j hj42).2
          rw [hip] at h1 h2
          rw [h1, h2]
          exact ⟨le_foldl_max _ _, foldl_min_le _ _⟩
        · obtain ⟨hml, hnl, hmw, hnw⟩ := hacc
          obtain ⟨hml', hnl', hmw', hnw'⟩ := hu.1
          rw [entryOf_col_default _ hml hmw i j (by omega),
            entryOf_col_default _ hml' hmw' i j (by omega),
            entryOf_col_default _ hnl hnw i j (by omega),
            entryOf_col_default _ hnl' hnw' i j (by omega)]
          exact ⟨le_refl _, le_refl _⟩
      · obtain ⟨hml, hnl, hmw, hnw⟩ := hacc
        obtain ⟨hml', hnl', hmw', hnw'⟩ := hu.1
        rw [entryOf_row_default _ hml i j (by omega),
          entryOf_row_default _ hml' i j (by omega),
          entryOf_row_default _ hnl i j (by omega),
          entryOf_row_default _ hnl' i j (by omega)]
        exact ⟨le_refl _, le_refl _⟩
    · have ho := hu.2.2 i hip
      unfold entryOf
      rw [ho.1, ho.2]
      exact ⟨le_refl _, le_refl _⟩
  · intro w d hcon hWF si hsiS hsi10 j hj
    obtain ⟨acc, hfold, hdmax, hdmin⟩ := construct_ok_inversion fs tfs data_dir sf bf w d hcon
    rw [foldlM_constructStep_ok fs data_dir _ _ hfs hWF initAcc] at hfold
    have hacc := Except.ok.inj hfold
    have hstats := foldl_pairUpdate_stats fs data_dir _ hfs _ hWF initAcc initAcc_wf
    obtain ⟨hme, hnee⟩ := hstats.2 si hsi10 j hj
    rw [hacc] at hme hnee
    rw [pairsOf_flatMap_vals fs data_dir _ _ si hsiS j] at hme hnee
    rw [entry_initAcc_max si j hsi10 hj] at hme
    rw [entry_initAcc_min si j hsi10 hj] at hnee
    rw [hdmax, hdmin]
    refine ⟨⟨?_, ?_⟩, ⟨?_, ?_⟩⟩
    · rw [hme]
      rcases foldl_max_eq_init_or_mem (colValues (speakerSourceFrames fs data_dir
          (linesOf tfs data_dir sf) (linesOf tfs data_dir bf)
          ((linesOf tfs data_dir sf).getD si "")) j) 0 with h0 | hm
      · rw [h0]
        exact List.mem_cons_self _ _
      · exact List.mem_cons_of_mem _ hm
    · intro v hv
      rw [hme]
      rcases List.mem_cons.1 hv with h | h
      · rw [h]
        exact le_foldl_max _ _
      · exact mem_le_foldl_max h 0
    · rw [hnee]
      rcases foldl_min_eq_init_or_mem (colValues (speakerSourceFrames fs data_dir
          (linesOf tfs data_dir sf) (linesOf tfs data_dir bf)
          ((linesOf tfs data_dir sf).getD si "")) j) sentinel with h0 | hm
      · rw [h0]
        exact List.mem_cons_self _ _
      · exact List.mem_cons_of_mem _ hm
    · intro v hv
      rw [hnee]
      rcases List.mem_cons.1 hv with h | h
      · rw [h]
        exact foldl_min_le _ _
      · exact foldl_min_le_mem h sentinel

theorem claim_C3_speaker_stats_witness :
    entryOf dtA.speakers_max 0 0 ∈ (0 : ℚ) :: colValues
      (speakerSourceFrames fsA "d/" (linesOf tfsA "d/" "speakers.list")
        (linesOf tfsA "d/" "seq2seq_basenames.list")
        ((linesOf tfsA "d/" "speakers.list").getD 0 "")) 0 ∧
    (-1 : ℚ) ≤ entryOf dtA.speakers_max 0 0 ∧
    entryOf dtA.speakers_min 0 0 ≤ sentinel := by
  have hpairs : ∀ p ∈ pairsOf (linesOf tfsA "d/" "speakers.list")
      (linesOf tfsA "d/" "seq2seq_basenames.list"),
      PairWF fsA "d/" (longest_loop fsA "d/" (linesOf tfsA "d/" "speakers.list")
        (linesOf tfsA "d/" "seq2seq_basenames.list")) p := by
    intro p hp
    have hlist : pairsOf (linesOf tfsA "d/" "speakers.list")
        (linesOf tfsA "d/" "seq2seq_basenames.list") = [(0, "A", 0, "A", "u")] := by decide
    rw [hlist] at hp
    simp only [List.mem_singleton] at hp
    subst hp
    exact ⟨sideWF_fsA _ _, sideWF_fsA _ _⟩
  have h := (claim_C3_speaker_stats fsA tfsA "d/" "speakers.list" "seq2seq_basenames.list"
    parsedWF_fsA).2 [] dtA (by decide) hpairs 0 (by decide) (by decide) 0 (by decide)
  refine ⟨h.1.1, ?_, ?_⟩
  · exact h.1.2 (-1) (by decide)
  · exact h.2.2 sentinel (List.mem_cons_self _ _)

/-- C10: after seq2seq_construct_datatable completes with S speakers where
S < 10, every speakers_max row with index at least S still equals its seed
of 42 zeros and every speakers_min row with index at least S still equals
its seed of 42 sentinel values; only rows indexed by actual source
speakers are updated. -/
theorem claim_C10_untouched_rows (fs : FS) (tfs : TextFS) (data_dir sf bf : String)
    (w : List String) (d : Datatable)
    (h : seq2seq_construct_datatable fs tfs data_dir sf bf = .ok (w, d))
    (_hS : (linesOf tfs data_dir sf).length < 10)
    (i : Nat) (hiS : (linesOf tfs data_dir sf).length ≤ i) (hi10 : i < 10) :
    d.speakers_max.getD i [] = List.replicate 42 (0:ℚ) ∧
    d.speakers_min.getD i [] = List.replicate 42 sentinel := by
  obtain ⟨acc, hfold, hdmax, hdmin⟩ := construct_ok_inversion fs tfs data_dir sf bf w d h
  have hrows := foldlM_rows_preserve fs data_dir _ _ initAcc acc hfold i
    (fun p hp => by
      have := mem_pairsOf_fst_lt hp
      omega)
  rw [hdmax, hdmin, hrows.1, hrows.2]
  unfold initAcc
  exact ⟨getD_replicate_lt hi10 _, getD_replicate_lt hi10 _⟩

theorem claim_C10_untouched_rows_witness :
    dtA.speakers_max.getD 7 [] = List.replicate 42 (0:ℚ) ∧
    dtA.speakers_min.getD 7 [] = List.replicate 42 sentinel :=
  claim_C10_untouched_rows fsA tfsA "d/" "speakers.list" "seq2seq_basenames.list" [] dtA
    (by decide) (by decide) 7 (by decide) (by decide)

end Tfglib
